import Mathlib

/-!
Verification of the pycopy-lib `ucompiler` core: the AST-directed code
generator (`src/ucompiler/ucompiler/ucompiler.py`, class `Compiler`) and a
model of its bytecode assembler.  The code generator is translated
definition-by-definition from the Python source; the assembler (`ubytecode`
module, not part of the sources) is modelled from the specification.
-/

namespace UComp

/-! ## Opcodes and instructions -/

/-- Opcode enumeration: every opcode the compiler emits (source lines 76-368). -/
inductive OpCode where
  | LOAD_CONST_NONE | LOAD_CONST_OBJ | LOAD_CONST_STRING | LOAD_CONST_SMALL_INT
  | RETURN_VALUE | MAKE_FUNCTION
  | GET_ITER_STACK | FOR_ITER
  | JUMP | POP_JUMP_IF_TRUE | POP_JUMP_IF_FALSE
  | JUMP_IF_FALSE_OR_POP | JUMP_IF_TRUE_OR_POP
  | POP_TOP | DUP_TOP
  | IMPORT_NAME | IMPORT_FROM | IMPORT_STAR | LOAD_ATTR
  | BUILD_TUPLE | BUILD_LIST | BUILD_SET | BUILD_MAP | STORE_MAP
  | CALL_FUNCTION
  | LOAD_NAME | LOAD_GLOBAL | LOAD_FAST_N | LOAD_DEREF
  | STORE_NAME | STORE_GLOBAL | STORE_FAST_N | STORE_DEREF
  | STORE_NAME_CONST | STORE_GLOBAL_CONST
  | BINARY_ADD | BINARY_SUBTRACT | BINARY_MULTIPLY | BINARY_MAT_MULTIPLY
  | BINARY_TRUE_DIVIDE | BINARY_FLOOR_DIVIDE | BINARY_MODULO | BINARY_POWER
  | BINARY_LSHIFT | BINARY_RSHIFT | BINARY_AND | BINARY_OR | BINARY_XOR
  | BINARY_EQUAL | BINARY_NOT_EQUAL | BINARY_LESS | BINARY_LESS_EQUAL
  | BINARY_MORE | BINARY_MORE_EQUAL | BINARY_IS | BINARY_IN
  | INPLACE_ADD | INPLACE_SUBTRACT | INPLACE_MULTIPLY | INPLACE_MAT_MULTIPLY
  | INPLACE_TRUE_DIVIDE | INPLACE_FLOOR_DIVIDE | INPLACE_MODULO | INPLACE_POWER
  | INPLACE_LSHIFT | INPLACE_RSHIFT | INPLACE_AND | INPLACE_OR | INPLACE_XOR
  | UNARY_POSITIVE | UNARY_NEGATIVE | UNARY_INVERT | UNARY_NOT
  deriving DecidableEq, Repr

/-- Instruction operand forms (inline small int, name atom, pool index,
numeric operand, the two-byte operand pair of CALL_FUNCTION, or none). -/
inductive Operand where
  | noArg
  | natArg (n : Nat)
  | nat2 (a b : Nat)
  | strArg (s : String)
  | intArg (n : Int)
  | poolArg (i : Nat)
  deriving DecidableEq, Repr

/-- A buffer entry: a plain instruction, a branch to a label, or a bound
label marker (the position at which `put_label` bound the label). -/
inductive Instr where
  | ins (op : OpCode) (arg : Operand)
  | jmp (op : OpCode) (target : Nat)
  | lbl (l : Nat)
  deriving DecidableEq, Repr

/-- Modelled from the spec (section 4.1): the fixed static stack effect of
each no-operand-dependent opcode.  LOAD_* is +1, stores are -1, binary and
in-place operators are -1, unary operators are 0, POP_TOP -1, DUP_TOP +1,
STORE_MAP -2, FOR_ITER +1 on the fall-through, RETURN_VALUE -1,
GET_ITER_STACK replaces the iterable by the 4-slot iterator state (+3). -/
def stackEffect : OpCode → Int
  | .LOAD_CONST_NONE | .LOAD_CONST_OBJ | .LOAD_CONST_STRING
  | .LOAD_CONST_SMALL_INT => 1
  | .RETURN_VALUE => -1
  | .MAKE_FUNCTION => 1
  | .GET_ITER_STACK => 3
  | .FOR_ITER => 1
  | .JUMP => 0
  | .POP_JUMP_IF_TRUE | .POP_JUMP_IF_FALSE => -1
  | .JUMP_IF_FALSE_OR_POP | .JUMP_IF_TRUE_OR_POP => -1
  | .POP_TOP => -1
  | .DUP_TOP => 1
  | .IMPORT_NAME => -1
  | .IMPORT_FROM => 1
  | .IMPORT_STAR => -1
  | .LOAD_ATTR => 0
  | .BUILD_MAP => 1
  | .STORE_MAP => -2
  | .LOAD_NAME | .LOAD_GLOBAL | .LOAD_FAST_N | .LOAD_DEREF => 1
  | .STORE_NAME | .STORE_GLOBAL | .STORE_FAST_N | .STORE_DEREF => -1
  | .STORE_NAME_CONST | .STORE_GLOBAL_CONST => -1
  | .UNARY_POSITIVE | .UNARY_NEGATIVE | .UNARY_INVERT | .UNARY_NOT => 0
  | .BUILD_TUPLE | .BUILD_LIST | .BUILD_SET | .CALL_FUNCTION => 0
  | _ => -1

/-! ## Constant pool values and code objects -/

/-- A constant-pool entry: small/big integer objects, string and byte-string
literals, interned name atoms, and nested code objects (a code object is
stored with its fields inlined so that `Const` is a single inductive). -/
inductive Const where
  | intC (n : Int)
  | strC (s : String)
  | bytesC (b : String)
  | codeC (instrs : List Instr) (consts : List Const) (stacksize : Int)
      (cname : String) (cfilename : String) (cargcount : Nat)

/-- Modelled from the spec: pool lookup equality.  Interned atoms and literal
objects compare structurally; code objects, which the host language compares
by identity and which are freshly allocated at each MAKE_FUNCTION, are never
found equal to an existing entry. -/
def Const.eqb : Const → Const → Bool
  | .intC a, .intC b => a == b
  | .strC a, .strC b => a == b
  | .bytesC a, .bytesC b => a == b
  | _, _ => false

/-- The compilation output for one scope (`mpylib` code object).  `stacksize`
is the `mpy_stacksize` field. -/
structure CodeObj where
  instrs : List Instr
  consts : List Const
  stacksize : Int
  name : String
  filename : String
  argcount : Nat

/-- Pack a code object as a constant-pool entry. -/
def CodeObj.toConst (co : CodeObj) : Const :=
  .codeC co.instrs co.consts co.stacksize co.name co.filename co.argcount

/-! ## The bytecode assembler (`ubytecode.Bytecode`)

Modelled from the spec: this class is outside the given sources; the spec
(sections 2-4.1) fixes its interface and behaviour: an append-only
instruction buffer, an interning constant pool, a fresh-label counter, and a
shadow operand-stack depth `stk_ptr` with high-water mark `stk_max`,
refreshed at each emission. -/
structure Bytecode where
  code : List Instr := []
  consts : List Const := []
  stk_ptr : Int := 0
  stk_max : Int := 0
  next_label : Nat := 0

/-- Modelled from the spec: append one instruction whose static stack effect
is `d`; update `stk_ptr` and refresh `stk_max`. -/
def Bytecode.emit (bc : Bytecode) (i : Instr) (d : Int) : Bytecode :=
  { bc with
    code := bc.code ++ [i]
    stk_ptr := bc.stk_ptr + d
    stk_max := max bc.stk_max (bc.stk_ptr + d) }

/-- Modelled from the spec: `add` of an operand-free opcode. -/
def Bytecode.add (bc : Bytecode) (op : OpCode) : Bytecode :=
  bc.emit (.ins op .noArg) (stackEffect op)

/-- Modelled from the spec: `add` with a small-integer operand.  The stack
effect of BUILD_TUPLE/LIST/SET is `1 - n`; BUILD_MAP pushes one map. -/
def Bytecode.addN (bc : Bytecode) (op : OpCode) (n : Nat) : Bytecode :=
  let d : Int := match op with
    | .BUILD_TUPLE | .BUILD_LIST | .BUILD_SET => 1 - (n : Int)
    | _ => stackEffect op
  bc.emit (.ins op (.natArg n)) d

/-- Modelled from the spec: `add` with an interned name-atom operand. -/
def Bytecode.addStr (bc : Bytecode) (op : OpCode) (s : String) : Bytecode :=
  bc.emit (.ins op (.strArg s)) (stackEffect op)

/-- Modelled from the spec: constant-pool insertion with interning: an entry
structurally equal to an existing one reuses its index, otherwise the value
is appended.  Returns the new pool state and the entry's index. -/
def Bytecode.add_const (bc : Bytecode) (c : Const) : Bytecode × Nat :=
  match bc.consts.findIdx? (fun x => Const.eqb x c) with
  | some i => (bc, i)
  | none => ({ bc with consts := bc.consts ++ [c] }, bc.consts.length)

/-- Modelled from the spec: `add` of an opcode whose operand is a pooled
object (LOAD_CONST_OBJ, MAKE_FUNCTION): insert into the pool, emit the
opcode with the pool index. -/
def Bytecode.addObj (bc : Bytecode) (op : OpCode) (c : Const) : Bytecode :=
  let (bc1, i) := bc.add_const c
  bc1.emit (.ins op (.poolArg i)) (stackEffect op)

/-- Modelled from the spec: `get_label` returns a fresh unbound label id. -/
def Bytecode.get_label (bc : Bytecode) : Bytecode × Nat :=
  ({ bc with next_label := bc.next_label + 1 }, bc.next_label)

/-- Modelled from the spec: `put_label` binds a label at the current offset
(recorded here as a marker in the buffer). -/
def Bytecode.put_label (bc : Bytecode) (l : Nat) : Bytecode :=
  { bc with code := bc.code ++ [Instr.lbl l] }

/-- Modelled from the spec: `jump` emits a branch opcode towards a label
(fixup resolution is abstracted away; the branch records its target id). -/
def Bytecode.jump (bc : Bytecode) (op : OpCode) (l : Nat) : Bytecode :=
  bc.emit (.jmp op l) (stackEffect op)

/-- Modelled from the spec: `load_int` emits an integer constant: magnitude
below `2^30` as an inline-immediate opcode, anything else through the pool. -/
def Bytecode.load_int (bc : Bytecode) (n : Int) : Bytecode :=
  if -(2 ^ 30 : Int) < n ∧ n < 2 ^ 30 then
    bc.emit (.ins .LOAD_CONST_SMALL_INT (.intArg n)) 1
  else
    bc.addObj .LOAD_CONST_OBJ (.intC n)

/-- Modelled from the spec: finalization returns the completed code object;
`mpy_stacksize` is the shadow counter's high-water mark.  The display
fields are filled in afterwards by the code generator. -/
def Bytecode.get_codeobj (bc : Bytecode) : CodeObj :=
  { instrs := bc.code, consts := bc.consts, stacksize := bc.stk_max
    name := "", filename := "", argcount := 0 }

/-! ## Symbol tables (consumed, produced by the external `usymtable`) -/

/-- Scope category returned by `get_scope` (usymtable.SCOPE_NAME/GLOBAL/
FAST/DEREF, used as an index 0-3 in `_visit_var`). -/
inductive Scope where
  | NAME | GLOBAL | FAST | DEREF
  deriving DecidableEq, Repr

/-- The symbol-table capability consumed by the compiler: scope query, fast
slot query, and the number of fast local slots (`len(all_locals)`).  The
tables arrive already finalized. -/
structure SymTable where
  get_scope : String → Scope
  get_fast_local : String → Nat
  all_locals : Nat

/-! ## The AST subset consumed by the compiler -/

/-- Expression/name context tag (ast.Load, ast.Store, the synthetic
ast.StoreConst, and the remaining contexts such as ast.Del which
`_visit_var` rejects with `assert 0`). -/
inductive Ctx where
  | load | store | storeConst | del
  deriving DecidableEq, Repr

/-- Payload of an ast.Num literal: an integer, or a non-integer number such
as a float (its value is irrelevant: `visit_Num` only tests
`isinstance(node.n, int)` before the range assert). -/
inductive PyNum where
  | int (n : Int)
  | float
  deriving DecidableEq, Repr

/-- Loop kind pushed on the loop-context stack ("for" / "while"). -/
inductive LoopKind where
  | forK | whileK
  deriving DecidableEq, Repr

/-- Arithmetic/bitwise operator node kinds (keys of `binop_map` and
`inplaceop_map`). -/
inductive PyBinOp where
  | add | sub | mult | matMult | div | floorDiv | modOp | pow
  | lshift | rshift | bitAnd | bitOr | bitXor
  deriving DecidableEq, Repr

/-- Unary operator node kinds (keys of `unop_map`). -/
inductive PyUnOp where
  | uadd | usub | invert | notOp
  deriving DecidableEq, Repr

/-- Comparison operator node kinds (keys of `cmpop_map`). -/
inductive PyCmpOp where
  | eq | notEq | lt | ltE | gt | gtE | isOp | isNotOp | inOp | notInOp
  deriving DecidableEq, Repr

/-- Boolean operator node kinds (ast.And / ast.Or). -/
inductive PyBoolOp where
  | andOp | orOp
  deriving DecidableEq, Repr

mutual

/-- Expression nodes of the documented AST repertoire. -/
inductive Expr where
  | name (id : String) (ctx : Ctx)
  | num (n : PyNum)
  | strE (s : String)
  | bytesE (b : String)
  | tupleE (elts : List Expr) (ctx : Ctx)
  | listE (elts : List Expr) (ctx : Ctx)
  | setE (elts : List Expr)
  | dictE (keys : List Expr) (values : List Expr)
  | call (func : Expr) (args : List Expr) (keywords : Bool)
  | binOp (left : Expr) (op : PyBinOp) (right : Expr)
  | unaryOp (op : PyUnOp) (operand : Expr)
  | boolOp (op : PyBoolOp) (values : List Expr)
  | compare (left : Expr) (ops : List PyCmpOp) (comparators : List Expr)

/-- Statement nodes of the documented AST repertoire.  In `functionDef` the
boolean fields record whether the corresponding unsupported parameter
category (`args.vararg`, `args.kwonlyargs`, `args.kw_defaults`,
`args.kwarg`, `args.defaults`) is present/non-empty; `ftab` is the entry of
the externally built `symtab_map` for this scope-defining node.  Import
name lists pair each dotted name with its optional alias. -/
inductive Stmt where
  | functionDef (fname : String) (params : List String)
      (vararg kwonlyargs kw_defaults kwarg defaults : Bool)
      (body : List Stmt) (ftab : SymTable)
  | forS (target : Expr) (iter : Expr) (body : List Stmt) (orelse : List Stmt)
  | whileS (test : Expr) (body : List Stmt) (orelse : List Stmt)
  | ifS (test : Expr) (body : List Stmt) (orelse : List Stmt)
  | breakS
  | continueS
  | passS
  | ret (value : Option Expr)
  | augAssign (target : Expr) (op : PyBinOp) (value : Expr)
  | assign (targets : List Expr) (value : Expr)
  | exprS (value : Expr)
  | importS (names : List (String × Option String))
  | importFrom (module : Option String) (names : List (String × Option String))
      (level : Int)

end

/-- The node's `ctx` attribute, for the node kinds that carry one
(assignment-target kinds); `none` models the AttributeError a `node.ctx`
access raises on other kinds. -/
def getCtx : Expr → Option Ctx
  | .name _ c => some c
  | .tupleE _ c => some c
  | .listE _ c => some c
  | _ => none

/-- Overwrite the node's top-level `ctx` attribute (used to model the
transient mutation in `_visit_with_load_ctx`). -/
def setCtx : Expr → Ctx → Expr
  | .name i _, c => .name i c
  | .tupleE es _, c => .tupleE es c
  | .listE es _, c => .listE es c
  | e, _ => e

/-! ## Compiler state and operator tables -/

/-- Compilation aborts by exception/assertion; the payload is the message. -/
inductive CErr where
  | fail (msg : String)
  deriving DecidableEq, Repr

/-- The mutable state of a `Compiler` instance: active assembler, active
scope's symbol table, the loop-context stack of
`(continue_label, break_label, loop_kind)` triples, and the file name.
The innermost loop frame is the HEAD of `loop_stack` (the Python list
appends and pops at its end, so `loop_stack[-1]` is the head here, `append`
is cons, and `pop()` is `tail`). -/
structure CState where
  bc : Bytecode
  symtab : SymTable
  loop_stack : List (Nat × Nat × LoopKind)
  filename : String

/-- `binop_map` (source lines 288-302). -/
def binop_map : PyBinOp → OpCode
  | .add => .BINARY_ADD
  | .sub => .BINARY_SUBTRACT
  | .mult => .BINARY_MULTIPLY
  | .matMult => .BINARY_MAT_MULTIPLY
  | .div => .BINARY_TRUE_DIVIDE
  | .floorDiv => .BINARY_FLOOR_DIVIDE
  | .modOp => .BINARY_MODULO
  | .pow => .BINARY_POWER
  | .lshift => .BINARY_LSHIFT
  | .rshift => .BINARY_RSHIFT
  | .bitAnd => .BINARY_AND
  | .bitOr => .BINARY_OR
  | .bitXor => .BINARY_XOR

/-- `inplaceop_map` (source lines 213-227). -/
def inplaceop_map : PyBinOp → OpCode
  | .add => .INPLACE_ADD
  | .sub => .INPLACE_SUBTRACT
  | .mult => .INPLACE_MULTIPLY
  | .matMult => .INPLACE_MAT_MULTIPLY
  | .div => .INPLACE_TRUE_DIVIDE
  | .floorDiv => .INPLACE_FLOOR_DIVIDE
  | .modOp => .INPLACE_MODULO
  | .pow => .INPLACE_POWER
  | .lshift => .INPLACE_LSHIFT
  | .rshift => .INPLACE_RSHIFT
  | .bitAnd => .INPLACE_AND
  | .bitOr => .INPLACE_OR
  | .bitXor => .INPLACE_XOR

/-- `unop_map` (source lines 308-313). -/
def unop_map : PyUnOp → OpCode
  | .uadd => .UNARY_POSITIVE
  | .usub => .UNARY_NEGATIVE
  | .invert => .UNARY_INVERT
  | .notOp => .UNARY_NOT

/-- `cmpop_map` (source lines 256-267). -/
def cmpop_map : PyCmpOp → OpCode
  | .eq => .BINARY_EQUAL
  | .notEq => .BINARY_NOT_EQUAL
  | .lt => .BINARY_LESS
  | .ltE => .BINARY_LESS_EQUAL
  | .gt => .BINARY_MORE
  | .gtE => .BINARY_MORE_EQUAL
  | .isOp => .BINARY_IS
  | .isNotOp => .BINARY_IS
  | .inOp => .BINARY_IN
  | .notInOp => .BINARY_IN

/-- `Compiler._visit_var` (source lines 320-335): select the opcode family
from the name's resolved scope and the context, with the slot index as
operand for FAST/DEREF and the interned atom otherwise.  The final branch
(`assert 0`) fires for any other context such as ast.Del. -/
def visitVar (st : CState) (var : String) (ctx : Ctx) : Except CErr CState :=
  let scope := st.symtab.get_scope var
  let opOpt : Option OpCode :=
    match ctx, scope with
    | .load, .NAME => some .LOAD_NAME
    | .load, .GLOBAL => some .LOAD_GLOBAL
    | .load, .FAST => some .LOAD_FAST_N
    | .load, .DEREF => some .LOAD_DEREF
    | .store, .NAME => some .STORE_NAME
    | .store, .GLOBAL => some .STORE_GLOBAL
    | .store, .FAST => some .STORE_FAST_N
    | .store, .DEREF => some .STORE_DEREF
    | .storeConst, .NAME => some .STORE_NAME_CONST
    | .storeConst, .GLOBAL => some .STORE_GLOBAL_CONST
    | .storeConst, .FAST => some .STORE_FAST_N
    | .storeConst, .DEREF => some .STORE_DEREF
    | .del, _ => none
  match opOpt with
  | none => .error (.fail "assert 0: unsupported name context")
  | some op =>
    match scope with
    | .FAST | .DEREF =>
      .ok { st with bc := st.bc.emit (.ins op (.natArg (st.symtab.get_fast_local var)))
                      (stackEffect op) }
    | _ =>
      .ok { st with bc := st.bc.addStr op var }

/-- The per-name loop of `visit_ImportFrom` (source lines 187-189):
IMPORT_FROM each name, store under the alias or the name. -/
def importFromNames (st : CState) :
    List (String × Option String) → Except CErr CState
  | [] => .ok st
  | (n, asn) :: rest =>
    let st1 : CState := { st with bc := st.bc.addStr .IMPORT_FROM n }
    match visitVar st1 (asn.getD n) .storeConst with
    | .error e => .error e
    | .ok st2 => importFromNames st2 rest

/-- The per-name loop of `visit_Import` (source lines 193-203). -/
def importNames (st : CState) :
    List (String × Option String) → Except CErr CState
  | [] => .ok st
  | (n, asn) :: rest =>
    let bc1 := ((st.bc.load_int 0).add .LOAD_CONST_NONE).addStr .IMPORT_NAME n
    let r :=
      match asn with
      | some aname =>
        let comps := n.splitOn "."
        let bc2 := (comps.drop 1).foldl (fun (b : Bytecode) c => b.addStr .LOAD_ATTR c) bc1
        visitVar { st with bc := bc2 } aname .storeConst
      | none =>
        visitVar { st with bc := bc1 } ((n.splitOn ".").headD "") .storeConst
    match r with
    | .error e => .error e
    | .ok st2 => importNames st2 rest

/-- `isinstance(s, ast.Return)`. -/
def isRet : Stmt → Bool
  | .ret _ => true
  | _ => false

/-- Python's `isinstance(last_stmt, ast.Return)` test on the value
`_visit_suite` returns: the last statement of a non-empty suite, `None`
otherwise. -/
def endsWithReturn : List Stmt → Bool
  | [] => false
  | [s] => isRet s
  | _ :: s :: rest => endsWithReturn (s :: rest)

theorem sizeOf_setCtx (e : Expr) (c : Ctx) : sizeOf (setCtx e c) = sizeOf e := by
  cases e <;> try rfl
  all_goals (rename_i f ctx0; cases ctx0 <;> cases c <;> simp [setCtx])

/-! ## The code generator (`Compiler.visit_*`, source lines 51-368)

The recursive `ast.NodeVisitor` dispatch becomes a mutual recursion:
`visitExpr`/`visitStmt` hold the per-node-kind cases, `visitSuite` is
`_visit_suite`, and the remaining functions are the `for` loops of the
corresponding visitor methods made recursive. -/

mutual

/-- Per-expression dispatch of `Compiler.visit` (the `visit_Name`,
`visit_Num`, `visit_Str`, `visit_Bytes`, `visit_Tuple`, `visit_List`,
`visit_Set`, `visit_Dict`, `visit_Call`, `visit_BinOp`, `visit_UnaryOp`,
`visit_BoolOp`, `visit_Compare` methods). -/
def visitExpr (st : CState) (e : Expr) : Except CErr CState :=
  match e with
  | .name id ctx => visitVar st id ctx
  | .num n =>
    -- visit_Num (lines 359-362): assert isinstance(node.n, int);
    -- assert -2**30 < node.n < 2**30 - 1; self.bc.load_int(node.n)
    match n with
    | .float => .error (.fail "assert isinstance(node.n, int)")
    | .int v =>
      if -(2 ^ 30 : Int) < v ∧ v < 2 ^ 30 - 1 then
        .ok { st with bc := st.bc.load_int v }
      else
        .error (.fail "assert -2**30 < node.n < 2**30 - 1")
  | .strE s => .ok { st with bc := st.bc.addObj .LOAD_CONST_OBJ (.strC s) }
  | .bytesE b => .ok { st with bc := st.bc.addObj .LOAD_CONST_OBJ (.bytesC b) }
  | .tupleE elts _ =>
    match visitExprList st elts with
    | .error e => .error e
    | .ok st1 => .ok { st1 with bc := st1.bc.addN .BUILD_TUPLE elts.length }
  | .listE elts _ =>
    match visitExprList st elts with
    | .error e => .error e
    | .ok st1 => .ok { st1 with bc := st1.bc.addN .BUILD_LIST elts.length }
  | .setE elts =>
    match visitExprList st elts with
    | .error e => .error e
    | .ok st1 => .ok { st1 with bc := st1.bc.addN .BUILD_SET elts.length }
  | .dictE keys values =>
    visitDictPairs { st with bc := st.bc.addN .BUILD_MAP keys.length } keys values
  | .call func args keywords =>
    if keywords then .error (.fail "assert not node.keywords")
    else
      match visitExpr st func with
      | .error e => .error e
      | .ok st1 =>
        match visitExprList st1 args with
        | .error e => .error e
        | .ok st2 =>
          .ok { st2 with
                bc := st2.bc.emit (.ins .CALL_FUNCTION (.nat2 args.length 0))
                        (-(args.length : Int)) }
  | .binOp left op right =>
    match visitExpr st left with
    | .error e => .error e
    | .ok st1 =>
      match visitExpr st1 right with
      | .error e => .error e
      | .ok st2 => .ok { st2 with bc := st2.bc.add (binop_map op) }
  | .unaryOp op operand =>
    match visitExpr st operand with
    | .error e => .error e
    | .ok st1 => .ok { st1 with bc := st1.bc.add (unop_map op) }
  | .boolOp op values =>
    let jop : OpCode :=
      match op with
      | .andOp => .JUMP_IF_FALSE_OR_POP
      | .orOp => .JUMP_IF_TRUE_OR_POP
    let (bc1, join_l) := st.bc.get_label
    match visitBoolVals { st with bc := bc1 } jop join_l values with
    | .error e => .error e
    | .ok st1 => .ok { st1 with bc := st1.bc.put_label join_l }
  | .compare left ops comparators =>
    match ops with
    | [] => .error (.fail "assert len(node.ops) == 1")
    | _ :: _ :: _ => .error (.fail "assert len(node.ops) == 1")
    | [op] => visitCompareOne st left op comparators
termination_by sizeOf e
decreasing_by all_goals (simp_wf; try simp [sizeOf_setCtx]); all_goals omega

/-- The single-operator tail of `visit_Compare` (lines 268-273): emit left,
emit `comparators[0]`, emit the mapped compare opcode, and append UNARY_NOT
for `is not` / `not in`. -/
def visitCompareOne (st : CState) (left : Expr) (op : PyCmpOp)
    (comparators : List Expr) : Except CErr CState :=
  (visitExpr st left).bind fun st1 =>
    (match comparators with
     | [] => (.error (.fail "IndexError: node.comparators[0]") : Except CErr CState)
     | c :: _ => visitExpr st1 c).bind fun st2 =>
      let st3 : CState := { st2 with bc := st2.bc.add (cmpop_map op) }
      -- if op_t in (ast.IsNot, ast.NotIn): UNARY_NOT
      if op = PyCmpOp.isNotOp ∨ op = PyCmpOp.notInOp then
        .ok { st3 with bc := st3.bc.add .UNARY_NOT }
      else .ok st3
termination_by 1 + sizeOf left + sizeOf comparators
decreasing_by all_goals (simp_wf; try simp [sizeOf_setCtx]); all_goals omega

/-- The element loops of `visit_Tuple`/`visit_List`/`visit_Set` and the
positional-argument loop of `visit_Call`. -/
def visitExprList (st : CState) (es : List Expr) : Except CErr CState :=
  match es with
  | [] => .ok st
  | e :: rest =>
    match visitExpr st e with
    | .error err => .error err
    | .ok st1 => visitExprList st1 rest
termination_by sizeOf es
decreasing_by all_goals (simp_wf; try simp [sizeOf_setCtx]); all_goals omega

/-- The value loop of `visit_BoolOp` (lines 281-284): every value but the
last is followed by the short-circuit jump to `join_l`; an empty value list
hits `node.values[-1]` and raises. -/
def visitBoolVals (st : CState) (jop : OpCode) (join_l : Nat) (vs : List Expr) :
    Except CErr CState :=
  match vs with
  | [] => .error (.fail "IndexError: node.values[-1]")
  | [v] => visitExpr st v
  | v :: w :: rest =>
    match visitExpr st v with
    | .error e => .error e
    | .ok st1 =>
      visitBoolVals { st1 with bc := st1.bc.jump jop join_l } jop join_l (w :: rest)
termination_by sizeOf vs
decreasing_by all_goals (simp_wf; try simp [sizeOf_setCtx]); all_goals omega

/-- The `zip(node.keys, node.values)` loop of `visit_Dict` (lines 354-357):
per pair, value then key then STORE_MAP. -/
def visitDictPairs (st : CState) (keys values : List Expr) : Except CErr CState :=
  match keys, values with
  | k :: ks, v :: vs =>
    match visitExpr st v with
    | .error e => .error e
    | .ok st1 =>
      match visitExpr st1 k with
      | .error e => .error e
      | .ok st2 => visitDictPairs { st2 with bc := st2.bc.add .STORE_MAP } ks vs
  | [], _ => .ok st
  | _ :: _, [] => .ok st
termination_by sizeOf keys + sizeOf values
decreasing_by all_goals (simp_wf; try simp [sizeOf_setCtx]); all_goals omega

/-- The target loop of `visit_Assign` (lines 235-238): DUP_TOP before every
target except the last; the last target alone; `node.targets[-1]` on an
empty list raises. -/
def visitAssignTargets (st : CState) (ts : List Expr) : Except CErr CState :=
  match ts with
  | [] => .error (.fail "IndexError: node.targets[-1]")
  | [t] => visitExpr st t
  | t :: u :: rest =>
    match visitExpr { st with bc := st.bc.add .DUP_TOP } t with
    | .error e => .error e
    | .ok st1 => visitAssignTargets st1 (u :: rest)
termination_by sizeOf ts
decreasing_by all_goals (simp_wf; try simp [sizeOf_setCtx]); all_goals omega

/-- Per-statement dispatch of `Compiler.visit` (the `visit_FunctionDef`,
`visit_For`, `visit_While`, `visit_If`, `visit_Break`, `visit_Continue`,
`visit_Pass`, `visit_Return`, `visit_AugAssign`, `visit_Assign`,
`visit_Expr`, `visit_Import`, `visit_ImportFrom` methods). -/
def visitStmt (st : CState) (s : Stmt) : Except CErr CState :=
  match s with
  | .functionDef fname params vararg kwonlyargs kw_defaults kwarg defaults body ftab =>
    -- _visit_function (lines 79-114)
    if vararg then .error (.fail "assert args.vararg is None")
    else if kwonlyargs then .error (.fail "assert not args.kwonlyargs")
    else if kw_defaults then .error (.fail "assert not args.kw_defaults")
    else if kwarg then .error (.fail "assert args.kwarg is None")
    else if defaults then .error (.fail "assert not args.defaults")
    else
      -- switch to the function scope and a fresh assembler; pre-insert the
      -- parameter-name atoms into the constant pool
      let inner0 : Bytecode :=
        params.foldl (fun (b : Bytecode) p => (b.add_const (.strC p)).1) {}
      match visitSuite { st with bc := inner0, symtab := ftab } body with
      | .error e => .error e
      | .ok stB =>
        let bcF :=
          if endsWithReturn body then stB.bc
          else (stB.bc.add .LOAD_CONST_NONE).add .RETURN_VALUE
        let co : CodeObj :=
          { bcF.get_codeobj with
            name := fname,
            filename := st.filename,
            argcount := params.length,
            stacksize := bcF.get_codeobj.stacksize + ftab.all_locals }
        -- restore the outer assembler/scope and emit MAKE_FUNCTION + store
        let stO : CState :=
          { stB with bc := st.bc.addObj .MAKE_FUNCTION co.toConst, symtab := st.symtab }
        visitVar stO fname .storeConst
  | .forS target iter body orelse =>
    -- visit_For (lines 119-133)
    let (bcA, test_l) := st.bc.get_label
    let (bcB, end_l) := bcA.get_label
    match visitExpr { st with bc := bcB } iter with
    | .error e => .error e
    | .ok st1 =>
      let bc2 := ((st1.bc.add .GET_ITER_STACK).put_label test_l).jump .FOR_ITER end_l
      match visitExpr { st1 with bc := bc2 } target with
      | .error e => .error e
      | .ok st2 =>
        let stF : CState :=
          { st2 with loop_stack := (test_l, end_l, LoopKind.forK) :: st2.loop_stack }
        match visitSuite stF body with
        | .error e => .error e
        | .ok st3 =>
          let bc4 := ((st3.bc.jump .JUMP test_l).put_label end_l)
          let st4 : CState :=
            { st3 with
              loop_stack := st3.loop_stack.tail,
              bc := { bc4 with stk_ptr := bc4.stk_ptr - 4 } }
          visitSuite st4 orelse
  | .whileS test body orelse =>
    -- visit_While (lines 135-148)
    let (bcA, test_l) := st.bc.get_label
    let (bcB, body_l) := bcA.get_label
    let (bcC, end_l) := bcB.get_label
    let bc1 := (bcC.jump .JUMP test_l).put_label body_l
    let stW : CState :=
      { st with
        bc := bc1,
        loop_stack := (test_l, end_l, LoopKind.whileK) :: st.loop_stack }
    match visitSuite stW body with
    | .error e => .error e
    | .ok st1 =>
      let st2 : CState :=
        { st1 with
          loop_stack := st1.loop_stack.tail,
          bc := st1.bc.put_label test_l }
      match visitExpr st2 test with
      | .error e => .error e
      | .ok st3 =>
        match visitSuite { st3 with bc := st3.bc.jump .POP_JUMP_IF_TRUE body_l }
            orelse with
        | .error e => .error e
        | .ok st4 => .ok { st4 with bc := st4.bc.put_label end_l }
  | .ifS test body orelse =>
    -- visit_If (lines 163-176)
    match visitExpr st test with
    | .error e => .error e
    | .ok st1 =>
      let (bcA, join_l) := st1.bc.get_label
      if orelse.isEmpty then
        match visitSuite { st1 with bc := bcA.jump .POP_JUMP_IF_FALSE join_l } body with
        | .error e => .error e
        | .ok st2 => .ok { st2 with bc := st2.bc.put_label join_l }
      else
        let (bcB, else_l) := bcA.get_label
        match visitSuite { st1 with bc := bcB.jump .POP_JUMP_IF_FALSE else_l } body with
        | .error e => .error e
        | .ok st2 =>
          let bc3 := (st2.bc.jump .JUMP join_l).put_label else_l
          match visitSuite { st2 with bc := bc3 } orelse with
          | .error e => .error e
          | .ok st3 => .ok { st3 with bc := st3.bc.put_label join_l }
  | .breakS =>
    -- visit_Break (lines 154-161)
    match st.loop_stack with
    | [] => .error (.fail "assert self.loop_stack")
    | (_, break_l, kind) :: _ =>
      let bc1 :=
        if kind = LoopKind.forK then
          let s0 := st.bc.stk_ptr
          let bcP := (((st.bc.add .POP_TOP).add .POP_TOP).add .POP_TOP).add .POP_TOP
          { bcP with stk_ptr := s0 }
        else st.bc
      .ok { st with bc := bc1.jump .JUMP break_l }
  | .continueS =>
    -- visit_Continue (lines 150-152)
    match st.loop_stack with
    | [] => .error (.fail "assert self.loop_stack")
    | (continue_l, _, _) :: _ => .ok { st with bc := st.bc.jump .JUMP continue_l }
  | .passS => .ok st
  | .ret value =>
    -- visit_Return (lines 205-210)
    match value with
    | none => .ok { st with bc := (st.bc.add .LOAD_CONST_NONE).add .RETURN_VALUE }
    | some v =>
      match visitExpr st v with
      | .error e => .error e
      | .ok st1 => .ok { st1 with bc := st1.bc.add .RETURN_VALUE }
  | .augAssign target op value =>
    -- visit_AugAssign (lines 212-231), with _visit_with_load_ctx (lines
    -- 51-59) inlined: save node.ctx, set it to Load, visit, restore.
    match getCtx target with
    | none => .error (.fail "AttributeError: node.ctx")
    | some ctx =>
      match visitExpr st (setCtx target Ctx.load) with
      | .error e => .error e
      | .ok st1 =>
        let targetR := setCtx (setCtx target Ctx.load) ctx
        match visitExpr st1 value with
        | .error e => .error e
        | .ok st2 =>
          visitExpr { st2 with bc := st2.bc.add (inplaceop_map op) } targetR
  | .assign targets value =>
    -- visit_Assign (lines 233-238)
    match visitExpr st value with
    | .error e => .error e
    | .ok st1 => visitAssignTargets st1 targets
  | .exprS value =>
    -- visit_Expr (lines 240-242)
    match visitExpr st value with
    | .error e => .error e
    | .ok st1 => .ok { st1 with bc := st1.bc.add .POP_TOP }
  | .importS names => importNames st names
  | .importFrom module names level =>
    -- visit_ImportFrom (lines 178-190)
    let bc1 := (names.map Prod.fst).foldl
      (fun (b : Bytecode) n => b.addStr .LOAD_CONST_STRING n) (st.bc.load_int level)
    let bc2 := (bc1.addN .BUILD_TUPLE names.length).addStr .IMPORT_NAME (module.getD "")
    if names.map Prod.fst = ["*"] then
      .ok { st with bc := bc2.add .IMPORT_STAR }
    else
      match importFromNames { st with bc := bc2 } names with
      | .error e => .error e
      | .ok st1 => .ok { st1 with bc := st1.bc.add .POP_TOP }
termination_by sizeOf s
decreasing_by all_goals (simp_wf; try simp [sizeOf_setCtx]); all_goals omega

/-- `Compiler._visit_suite` (lines 62-70): visit each statement, asserting
after each one that the shadow stack depth is back at its pre-statement
value: a complete statement must have zero cumulative stack effect. -/
def visitSuite (st : CState) (ss : List Stmt) : Except CErr CState :=
  match ss with
  | [] => .ok st
  | s :: rest =>
    let org_stk_ptr := st.bc.stk_ptr
    match visitStmt st s with
    | .error e => .error e
    | .ok st1 =>
      if st1.bc.stk_ptr = org_stk_ptr then visitSuite st1 rest
      else .error (.fail "assert self.bc.stk_ptr == org_stk_ptr")
termination_by sizeOf ss
decreasing_by all_goals (simp_wf; try simp [sizeOf_setCtx]); all_goals omega

end

/-- `visit_Module` (lines 72-77) followed by the tail of `compile_ast`
(lines 371-381): compile the module suite against the module scope's symbol
table in a fresh assembler, append the LOAD_CONST_NONE; RETURN_VALUE
epilogue, and finalize the module code object.  Symbol-table construction
is outside the compiler core, so the module's table is an input. -/
def compile_ast (body : List Stmt) (modtab : SymTable) (filename : String) :
    Except CErr CodeObj :=
  let st0 : CState := { bc := {}, symtab := modtab, loop_stack := [], filename := filename }
  match visitSuite st0 body with
  | .error e => .error e
  | .ok st1 =>
    let bc1 := (st1.bc.add .LOAD_CONST_NONE).add .RETURN_VALUE
    .ok { bc1.get_codeobj with name := "<module>", filename := filename }

/-! ## A trivial symbol table and initial state, for concrete witnesses -/

/-- A module-level symbol table resolving every name to the NAME scope. -/
def demoTab : SymTable :=
  { get_scope := fun _ => Scope.NAME, get_fast_local := fun _ => 0, all_locals := 0 }

/-- A fresh compiler state over `demoTab`. -/
def demoSt : CState :=
  { bc := {}, symtab := demoTab, loop_stack := [], filename := "<file>" }

/-! ## Append-only emission

The assembler buffer and constant pool only grow, and they grow at the
end: every visitor call that succeeds leaves the previously emitted code
and pool entries in place as a prefix. -/

/-- `b'` extends `b`: its buffer and pool are those of `b` plus a suffix. -/
def BMono (b b' : Bytecode) : Prop :=
  (∃ c, b'.code = b.code ++ c) ∧ (∃ k, b'.consts = b.consts ++ k)

theorem BMono.refl (b : Bytecode) : BMono b b :=
  ⟨⟨[], by simp⟩, ⟨[], by simp⟩⟩

theorem BMono.trans {a b c : Bytecode} (h1 : BMono a b) (h2 : BMono b c) :
    BMono a c := by
  obtain ⟨⟨c1, hc1⟩, ⟨k1, hk1⟩⟩ := h1
  obtain ⟨⟨c2, hc2⟩, ⟨k2, hk2⟩⟩ := h2
  exact ⟨⟨c1 ++ c2, by simp [hc2, hc1]⟩, ⟨k1 ++ k2, by simp [hk2, hk1]⟩⟩

theorem bmono_emit (bc : Bytecode) (i : Instr) (d : Int) :
    BMono bc (bc.emit i d) :=
  ⟨⟨[i], rfl⟩, ⟨[], by simp [Bytecode.emit]⟩⟩

theorem bmono_add (bc : Bytecode) (op : OpCode) : BMono bc (bc.add op) :=
  bmono_emit ..

theorem bmono_addN (bc : Bytecode) (op : OpCode) (n : Nat) :
    BMono bc (bc.addN op n) :=
  bmono_emit ..

theorem bmono_addStr (bc : Bytecode) (op : OpCode) (s : String) :
    BMono bc (bc.addStr op s) :=
  bmono_emit ..

theorem bmono_add_const (bc : Bytecode) (c : Const) :
    BMono bc (bc.add_const c).1 := by
  unfold Bytecode.add_const
  cases bc.consts.findIdx? (fun x => Const.eqb x c) with
  | none => exact ⟨⟨[], by simp⟩, ⟨[c], rfl⟩⟩
  | some i => exact BMono.refl bc

theorem bmono_addObj (bc : Bytecode) (op : OpCode) (c : Const) :
    BMono bc (bc.addObj op c) :=
  (bmono_add_const bc c).trans (bmono_emit ..)

theorem bmono_put_label (bc : Bytecode) (l : Nat) : BMono bc (bc.put_label l) :=
  ⟨⟨[Instr.lbl l], rfl⟩, ⟨[], by simp [Bytecode.put_label]⟩⟩

theorem bmono_jump (bc : Bytecode) (op : OpCode) (l : Nat) :
    BMono bc (bc.jump op l) :=
  bmono_emit ..

theorem bmono_load_int (bc : Bytecode) (n : Int) : BMono bc (bc.load_int n) := by
  unfold Bytecode.load_int
  split
  · exact bmono_emit ..
  · exact bmono_addObj ..

theorem bmono_stk (bc : Bytecode) (x : Int) :
    BMono bc { bc with stk_ptr := x } :=
  ⟨⟨[], by simp⟩, ⟨[], by simp⟩⟩

theorem bmono_get_label (bc : Bytecode) : BMono bc bc.get_label.1 :=
  ⟨⟨[], by simp [Bytecode.get_label]⟩, ⟨[], by simp [Bytecode.get_label]⟩⟩

theorem bmono_foldl {α : Type} (f : Bytecode → α → Bytecode)
    (hf : ∀ b a, BMono b (f b a)) (l : List α) :
    ∀ b, BMono b (l.foldl f b) := by
  induction l with
  | nil => exact fun b => BMono.refl b
  | cons a rest ih => exact fun b => (hf b a).trans (ih (f b a))

/-- `st'` extends `st`: the assembler buffer and pool only grew. -/
abbrev Emits (st st' : CState) : Prop := BMono st.bc st'.bc

theorem visitVar_mono (st : CState) (v : String) (ctx : Ctx) (st' : CState)
    (h : visitVar st v ctx = .ok st') : Emits st st' := by
  unfold visitVar at h
  simp only [] at h
  split at h
  · exact absurd h (by simp)
  · split at h <;> (cases h; first
      | exact bmono_emit ..
      | exact bmono_addStr ..)

theorem importFromNames_mono (names : List (String × Option String)) :
    ∀ st st', importFromNames st names = .ok st' → Emits st st' := by
  induction names with
  | nil => intro st st' h; cases h; exact BMono.refl _
  | cons n rest ih =>
    intro st st' h
    unfold importFromNames at h
    simp only [] at h
    split at h
    · exact absurd h (by simp)
    · rename_i st2 heq
      exact ((bmono_addStr st.bc .IMPORT_FROM n.1).trans
        (visitVar_mono _ _ _ _ heq)).trans (ih _ _ h)

theorem importNames_mono (names : List (String × Option String)) :
    ∀ st st', importNames st names = .ok st' → Emits st st' := by
  induction names with
  | nil => intro st st' h; cases h; exact BMono.refl _
  | cons n rest ih =>
    intro st st' h
    unfold importNames at h
    simp only [] at h
    split at h
    · exact absurd h (by simp)
    · rename_i st2 heq
      have hpre : BMono st.bc (((st.bc.load_int 0).add .LOAD_CONST_NONE).addStr
          .IMPORT_NAME n.1) :=
        ((bmono_load_int ..).trans (bmono_add ..)).trans (bmono_addStr ..)
      have h2 : Emits st st2 := by
        split at heq
        · exact (hpre.trans ((bmono_foldl _ (fun b c => bmono_addStr b .LOAD_ATTR c)
            _ _))).trans (visitVar_mono _ _ _ _ heq)
        · exact hpre.trans (visitVar_mono _ _ _ _ heq)
      exact h2.trans (ih _ _ h)

theorem bindE_ok {α β : Type} {x : Except CErr α} {g : α → Except CErr β} {b : β}
    (hh : x.bind g = .ok b) : ∃ a, x = .ok a ∧ g a = .ok b := by
  cases x with
  | error e => exact absurd hh (by simp [Except.bind])
  | ok a => exact ⟨a, rfl, hh⟩

set_option maxHeartbeats 1000000 in
theorem visit_mono_expr :
    (∀ (st : CState) (e : Expr), ∀ st', visitExpr st e = .ok st' → Emits st st') ∧
    (∀ (st : CState) (left : Expr) (op : PyCmpOp) (cs : List Expr), ∀ st',
        visitCompareOne st left op cs = .ok st' → Emits st st') ∧
    (∀ (st : CState) (jop : OpCode) (jl : Nat) (vs : List Expr), ∀ st',
        visitBoolVals st jop jl vs = .ok st' → Emits st st') ∧
    (∀ (st : CState) (ks vs : List Expr), ∀ st', visitDictPairs st ks vs = .ok st' → Emits st st') ∧
    (∀ (st : CState) (es : List Expr), ∀ st', visitExprList st es = .ok st' → Emits st st') := by
  apply visitExpr.mutual_induct
  case case1 =>
    intro st id ctx st' h
    simp only [visitExpr] at h
    exact visitVar_mono st id ctx st' h
  case case2 =>
    intro st st' h
    simp [visitExpr] at h
  case case3 =>
    intro st v hr st' h
    simp only [visitExpr, if_pos hr] at h
    cases h
    exact bmono_load_int ..
  case case4 =>
    intro st v hr st' h
    simp only [visitExpr, if_neg hr] at h
    exact absurd h (by simp)
  case case5 =>
    intro st s st' h
    simp only [visitExpr] at h
    cases h
    exact bmono_addObj ..
  case case6 =>
    intro st b st' h
    simp only [visitExpr] at h
    cases h
    exact bmono_addObj ..
  case case7 =>
    intro st elts ctx e heq ih st' h
    simp only [visitExpr, heq] at h
    exact absurd h (by simp)
  case case8 =>
    intro st elts ctx st2 heq ih st' h
    simp only [visitExpr, heq] at h
    cases h
    exact (ih st2 heq).trans (bmono_addN ..)
  case case9 =>
    intro st elts ctx e heq ih st' h
    simp only [visitExpr, heq] at h
    exact absurd h (by simp)
  case case10 =>
    intro st elts ctx st2 heq ih st' h
    simp only [visitExpr, heq] at h
    cases h
    exact (ih st2 heq).trans (bmono_addN ..)
  case case11 =>
    intro st elts e heq ih st' h
    simp only [visitExpr, heq] at h
    exact absurd h (by simp)
  case case12 =>
    intro st elts st2 heq ih st' h
    simp only [visitExpr, heq] at h
    cases h
    exact (ih st2 heq).trans (bmono_addN ..)
  case case13 =>
    intro st keys values ih st' h
    simp only [visitExpr] at h
    exact BMono.trans (bmono_addN ..) (ih st' h)
  case case14 =>
    intro st func args st' h
    simp [visitExpr] at h
  case case15 =>
    intro st func args keywords hk e heq ih st' h
    simp only [visitExpr, if_neg hk, heq] at h
    exact absurd h (by simp)
  case case16 =>
    intro st func args keywords hk st2 heq e heqL ihF ihA st' h
    simp only [visitExpr, if_neg hk, heq, heqL] at h
    exact absurd h (by simp)
  case case17 =>
    intro st func args keywords hk st2 heq st3 heqL ihF ihA st' h
    simp only [visitExpr, if_neg hk, heq, heqL] at h
    cases h
    exact ((ihF st2 heq).trans (ihA st3 heqL)).trans (bmono_emit ..)
  case case18 =>
    intro st left op right e heq ih st' h
    simp only [visitExpr, heq] at h
    exact absurd h (by simp)
  case case19 =>
    intro st left op right st2 heq e heqR ihL ihR st' h
    simp only [visitExpr, heq, heqR] at h
    exact absurd h (by simp)
  case case20 =>
    intro st left op right st2 heq st3 heqR ihL ihR st' h
    simp only [visitExpr, heq, heqR] at h
    cases h
    exact ((ihL st2 heq).trans (ihR st3 heqR)).trans (bmono_add ..)
  case case21 =>
    intro st op operand e heq ih st' h
    simp only [visitExpr, heq] at h
    exact absurd h (by simp)
  case case22 =>
    intro st op operand st2 heq ih st' h
    simp only [visitExpr, heq] at h
    cases h
    exact (ih st2 heq).trans (bmono_add ..)
  case case23 =>
    intro st op values jop bc1 i hgl e heqB ih st' h
    simp only [visitExpr.eq_def, hgl] at h
    unfold_let jop at heqB
    simp only [heqB] at h
    exact absurd h (by simp)
  case case24 =>
    intro st op values jop bc1 i hgl st2 heqB ih st' h
    simp only [visitExpr.eq_def, hgl] at h
    unfold_let jop at heqB ih
    simp only [heqB] at h
    cases h
    have h0 : BMono st.bc bc1 := by
      have hx := bmono_get_label st.bc
      rw [hgl] at hx
      exact hx
    exact (h0.trans (ih st2 heqB)).trans (bmono_put_label ..)
  case case25 =>
    intro st left comparators st' h
    rw [visitExpr.eq_def] at h
    simp at h
  case case26 =>
    intro st left comparators o1 o2 tl st' h
    rw [visitExpr.eq_def] at h
    simp at h
  case case27 =>
    intro st left comparators op ih st' h
    simp only [visitExpr] at h
    exact ih st' h
  case case28 =>
    intro st left op comparators ihL ihC st' h
    simp only [visitCompareOne] at h
    obtain ⟨st1, h1, h2⟩ := bindE_ok h
    obtain ⟨st2, h2a, h2b⟩ := bindE_ok h2
    have base : Emits st st2 := by
      cases comparators with
      | nil => exact absurd h2a (by simp)
      | cons c cs =>
        have ihc := ihC st1
        simp only [] at ihc
        exact (ihL st1 h1).trans (ihc st2 h2a)
    split at h2b
    · cases h2b
      have e1 : Emits st2 { st2 with bc := (st2.bc.add (cmpop_map op)).add .UNARY_NOT } :=
        (bmono_add ..).trans (bmono_add ..)
      exact base.trans e1
    · cases h2b
      have e1 : Emits st2 { st2 with bc := st2.bc.add (cmpop_map op) } := bmono_add ..
      exact base.trans e1
  case case29 =>
    intro st jop jl st' h
    simp only [visitBoolVals] at h
    exact absurd h (by simp)
  case case30 =>
    intro st jop jl v ih st' h
    simp only [visitBoolVals] at h
    exact ih st' h
  case case31 =>
    intro st jop jl v w rest e heq ih st' h
    simp only [visitBoolVals, heq] at h
    exact absurd h (by simp)
  case case32 =>
    intro st jop jl v w rest st2 heq ihV ihR st' h
    simp only [visitBoolVals, heq] at h
    have e1 : Emits st2 { st2 with bc := st2.bc.jump jop jl } := bmono_jump ..
    exact ((ihV st2 heq).trans e1).trans (ihR st' h)
  case case33 =>
    intro st k ks v vs e heq ih st' h
    simp only [visitDictPairs, heq] at h
    exact absurd h (by simp)
  case case34 =>
    intro st k ks v vs st2 heq e heqK ihV ihK st' h
    simp only [visitDictPairs, heq, heqK] at h
    exact absurd h (by simp)
  case case35 =>
    intro st k ks v vs st2 heq st3 heqK ihV ihK ihR st' h
    simp only [visitDictPairs, heq, heqK] at h
    have e1 : Emits st3 { st3 with bc := st3.bc.add .STORE_MAP } := bmono_add ..
    exact ((ihV st2 heq).trans (ihK st3 heqK)).trans (e1.trans (ihR st' h))
  case case36 =>
    intro st values st' h
    simp only [visitDictPairs] at h
    cases h
    exact BMono.refl _
  case case37 =>
    intro st hd tl st' h
    simp only [visitDictPairs] at h
    cases h
    exact BMono.refl _
  case case38 =>
    intro st st' h
    simp only [visitExprList] at h
    cases h
    exact BMono.refl _
  case case39 =>
    intro st c tl e heq ih st' h
    simp only [visitExprList, heq] at h
    exact absurd h (by simp)
  case case40 =>
    intro st c tl st2 heq ihC ihT st' h
    simp only [visitExprList, heq] at h
    exact (ihC st2 heq).trans (ihT st' h)

theorem bmono_of_get_label {bc bc' : Bytecode} {l : Nat}
    (h : bc.get_label = (bc', l)) : BMono bc bc' := by
  have h1 : bc' = { bc with next_label := bc.next_label + 1 } := by
    have := congrArg Prod.fst h
    simp [Bytecode.get_label] at this
    exact this.symm
  subst h1
  exact ⟨⟨[], by simp⟩, ⟨[], by simp⟩⟩

theorem visitAssignTargets_mono :
    ∀ (st : CState) (ts : List Expr), ∀ st', visitAssignTargets st ts = .ok st' → Emits st st' := by
  apply visitAssignTargets.induct
    (fun st ts => ∀ st', visitAssignTargets st ts = .ok st' → Emits st st')
  case case1 =>
    intro st st' h
    simp [visitAssignTargets] at h
  case case2 =>
    intro st t st' h
    simp only [visitAssignTargets] at h
    exact visit_mono_expr.1 st t st' h
  case case3 =>
    intro st t u rest e heq st' h
    simp only [visitAssignTargets, heq] at h
    exact absurd h (by simp)
  case case4 =>
    intro st t u rest st1 heq ihR st' h
    simp only [visitAssignTargets, heq] at h
    have e1 : Emits st { st with bc := st.bc.add .DUP_TOP } := bmono_add ..
    exact (e1.trans (visit_mono_expr.1 _ t st1 heq)).trans (ihR st' h)

set_option maxHeartbeats 1000000 in
theorem visit_mono_stmt :
    (∀ (st : CState) (s : Stmt), ∀ st', visitStmt st s = .ok st' → Emits st st') ∧
    (∀ (st : CState) (ss : List Stmt), ∀ st', visitSuite st ss = .ok st' → Emits st st') := by
  apply visitStmt.mutual_induct
  case case1 =>
    intro st fname params ko kd kw df body ftab st' h
    simp [visitStmt] at h
  case case2 =>
    intro st fname params va kd kw df body ftab h1 st' h
    simp only [visitStmt, if_neg h1] at h
    exact absurd h (by simp)
  case case3 =>
    intro st fname params va ko kw df body ftab h1 h2 st' h
    simp only [visitStmt, if_neg h1, if_neg h2] at h
    exact absurd h (by simp)
  case case4 =>
    intro st fname params va ko kd df body ftab h1 h2 h3 st' h
    simp only [visitStmt, if_neg h1, if_neg h2, if_neg h3] at h
    exact absurd h (by simp)
  case case5 =>
    intro st fname params va ko kd kw body ftab h1 h2 h3 h4 st' h
    simp only [visitStmt, if_neg h1, if_neg h2, if_neg h3, if_neg h4] at h
    exact absurd h (by simp)
  case case6 =>
    intro st fname params va ko kd kw df body ftab h1 h2 h3 h4 h5 inner0 e heqS ih st' h
    simp only [visitStmt, if_neg h1, if_neg h2, if_neg h3, if_neg h4, if_neg h5] at h
    unfold_let inner0 at heqS
    simp only [heqS] at h
    exact absurd h (by simp)
  case case7 =>
    intro st fname params va ko kd kw df body ftab h1 h2 h3 h4 h5 inner0 st2 heqS ih st' h
    simp only [visitStmt, if_neg h1, if_neg h2, if_neg h3, if_neg h4, if_neg h5] at h
    unfold_let inner0 at heqS
    simp only [heqS] at h
    exact (bmono_addObj ..).trans (visitVar_mono _ _ _ _ h)
  case case8 =>
    intro st target iter body orelse bc1 i hgl1 bc2 i2 hgl2 e heqI st' h
    simp only [visitStmt, hgl1, hgl2, heqI] at h
    exact absurd h (by simp)
  case case9 =>
    intro st target iter body orelse bc1 i hgl1 bc2 i2 hgl2 st2 heqI bcG e heqT st' h
    simp only [visitStmt, hgl1, hgl2, heqI] at h
    unfold_let bcG at heqT
    simp only [heqT] at h
    exact absurd h (by simp)
  case case10 =>
    intro st target iter body orelse bc1 i hgl1 bc2 i2 hgl2 st2 heqI bcG st3 heqT stF e heqB ih st' h
    simp only [visitStmt, hgl1, hgl2, heqI] at h
    unfold_let bcG at heqT
    unfold_let stF at heqB
    simp only [heqT, heqB] at h
    exact absurd h (by simp)
  case case11 =>
    intro st target iter body orelse bc1 i hgl1 bc2 i2 hgl2 st2 heqI bcG st3 heqT stF st4 heqB bc4 st5 ihB ihO st' h
    simp only [visitStmt, hgl1, hgl2, heqI] at h
    unfold_let bcG at heqT
    unfold_let stF at heqB ihB
    unfold_let bc4 st5 at ihO
    simp only [heqT, heqB] at h
    have e0 : BMono st.bc bc2 := (bmono_of_get_label hgl1).trans (bmono_of_get_label hgl2)
    have e1 : BMono bc2 st2.bc := visit_mono_expr.1 _ iter st2 heqI
    have e2 : BMono st2.bc (((st2.bc.add .GET_ITER_STACK).put_label i).jump .FOR_ITER i2) :=
      ((bmono_add ..).trans (bmono_put_label ..)).trans (bmono_jump ..)
    have e3 : Emits _ st3 := visit_mono_expr.1 _ target st3 heqT
    have e4 : Emits _ st4 := ihB st4 heqB
    have e5 : BMono st4.bc ((st4.bc.jump .JUMP i).put_label i2) :=
      (bmono_jump ..).trans (bmono_put_label ..)
    have e6 : BMono ((st4.bc.jump .JUMP i).put_label i2)
        { code := ((st4.bc.jump .JUMP i).put_label i2).code,
          consts := ((st4.bc.jump .JUMP i).put_label i2).consts,
          stk_ptr := ((st4.bc.jump .JUMP i).put_label i2).stk_ptr - 4,
          stk_max := ((st4.bc.jump .JUMP i).put_label i2).stk_max,
          next_label := ((st4.bc.jump .JUMP i).put_label i2).next_label } :=
      ⟨⟨[], by simp⟩, ⟨[], by simp⟩⟩
    have e7 := ihO st' h
    exact ((((((e0.trans e1).trans e2).trans e3).trans e4).trans e5).trans e6).trans e7
  case case12 =>
    intro st test body orelse bcA i hgl1 bcB i1 hgl2 bcC i2 hgl3 bc1 stW e heqB ih st' h
    simp only [visitStmt, hgl1, hgl2, hgl3] at h
    unfold_let bc1 stW at heqB
    simp only [heqB] at h
    exact absurd h (by simp)
  case case13 =>
    intro st test body orelse bcA i hgl1 bcB i1 hgl2 bcC i2 hgl3 bc1 stW st2 heqB st3 e heqT ih st' h
    simp only [visitStmt, hgl1, hgl2, hgl3] at h
    unfold_let bc1 stW at heqB
    unfold_let st3 at heqT
    simp only [heqB, heqT] at h
    exact absurd h (by simp)
  case case14 =>
    intro st test body orelse bcA i hgl1 bcB i1 hgl2 bcC i2 hgl3 bc1 stW st2 heqB st3 st4 heqT e heqO ihB ihO st' h
    simp only [visitStmt, hgl1, hgl2, hgl3] at h
    unfold_let bc1 stW at heqB
    unfold_let st3 at heqT
    simp only [heqB, heqT, heqO] at h
    exact absurd h (by simp)
  case case15 =>
    intro st test body orelse bcA i hgl1 bcB i1 hgl2 bcC i2 hgl3 bc1 stW st2 heqB st3 st4 heqT st5 heqO ihB ihO st' h
    simp only [visitStmt, hgl1, hgl2, hgl3] at h
    unfold_let bc1 stW at heqB ihB
    unfold_let st3 at heqT
    simp only [heqB, heqT, heqO] at h
    cases h
    have e0 : BMono st.bc bcC :=
      ((bmono_of_get_label hgl1).trans (bmono_of_get_label hgl2)).trans (bmono_of_get_label hgl3)
    have e1 : BMono bcC ((bcC.jump .JUMP i).put_label i1) :=
      (bmono_jump ..).trans (bmono_put_label ..)
    have e2 : Emits _ st2 := ihB st2 heqB
    have e3 : BMono st2.bc (st2.bc.put_label i) := bmono_put_label ..
    have e4 : Emits _ st4 := visit_mono_expr.1 _ test st4 heqT
    have e5 : BMono st4.bc (st4.bc.jump .POP_JUMP_IF_TRUE i1) := bmono_jump ..
    have e6 : Emits _ st5 := ihO st5 heqO
    have e7 : BMono st5.bc (st5.bc.put_label i2) := bmono_put_label ..
    exact ((((((e0.trans e1).trans e2).trans e3).trans e4).trans e5).trans e6).trans e7
  case case16 =>
    intro st test body orelse e heqT st' h
    simp only [visitStmt, heqT] at h
    exact absurd h (by simp)
  case case17 =>
    intro st test body orelse st2 heqT bc1 i hgl hemp e heqB ih st' h
    simp only [visitStmt, heqT, hgl, if_pos hemp] at h
    simp only [heqB] at h
    exact absurd h (by simp)
  case case18 =>
    intro st test body orelse st2 heqT bc1 i hgl hemp st3 heqB ih st' h
    simp only [visitStmt, heqT, hgl, if_pos hemp] at h
    simp only [heqB] at h
    cases h
    have e1 : BMono st.bc st2.bc := visit_mono_expr.1 st test st2 heqT
    have e2 : BMono st2.bc (bc1.jump .POP_JUMP_IF_FALSE i) :=
      (bmono_of_get_label hgl).trans (bmono_jump ..)
    have e3 : Emits _ st3 := ih st3 heqB
    exact ((e1.trans e2).trans e3).trans (bmono_put_label ..)
  case case19 =>
    intro st test body orelse st2 heqT bc1 i hgl hemp bc2 i1 hgl2 e heqB ih st' h
    simp only [visitStmt, heqT, hgl, if_neg hemp, hgl2] at h
    simp only [heqB] at h
    exact absurd h (by simp)
  case case20 =>
    intro st test body orelse st2 heqT bc1 i hgl hemp bc2 i1 hgl2 st3 heqB bc3 e heqO ihB ihO st' h
    simp only [visitStmt, heqT, hgl, if_neg hemp, hgl2] at h
    unfold_let bc3 at heqO
    simp only [heqB, heqO] at h
    exact absurd h (by simp)
  case case21 =>
    intro st test body orelse st2 heqT bc1 i hgl hemp bc2 i1 hgl2 st3 heqB bc3 st4 heqO ihB ihO st' h
    simp only [visitStmt, heqT, hgl, if_neg hemp, hgl2] at h
    unfold_let bc3 at heqO ihO
    simp only [heqB, heqO] at h
    cases h
    have e1 : BMono st.bc st2.bc := visit_mono_expr.1 st test st2 heqT
    have e2 : BMono st2.bc (bc2.jump .POP_JUMP_IF_FALSE i1) :=
      ((bmono_of_get_label hgl).trans (bmono_of_get_label hgl2)).trans (bmono_jump ..)
    have e3 : Emits _ st3 := ihB st3 heqB
    have e4 : BMono st3.bc ((st3.bc.jump .JUMP i).put_label i1) :=
      (bmono_jump ..).trans (bmono_put_label ..)
    have e5 : Emits _ st4 := ihO st4 heqO
    exact ((((e1.trans e2).trans e3).trans e4).trans e5).trans (bmono_put_label ..)
  case case22 =>
    intro st hls st' h
    simp only [visitStmt, hls] at h
    exact absurd h (by simp)
  case case23 =>
    intro st c b kind tail hls st' h
    simp only [visitStmt, hls] at h
    cases h
    show BMono st.bc _
    split
    · exact (((((bmono_add ..).trans (bmono_add ..)).trans (bmono_add ..)).trans
        (bmono_add ..)).trans (bmono_stk ..)).trans (bmono_jump ..)
    · exact bmono_jump ..
  case case24 =>
    intro st hls st' h
    simp only [visitStmt, hls] at h
    exact absurd h (by simp)
  case case25 =>
    intro st c b kind tail hls st' h
    simp only [visitStmt, hls] at h
    cases h
    exact bmono_jump ..
  case case26 =>
    intro st st' h
    simp only [visitStmt] at h
    cases h
    exact BMono.refl _
  case case27 =>
    intro st st' h
    simp only [visitStmt] at h
    cases h
    exact (bmono_add ..).trans (bmono_add ..)
  case case28 =>
    intro st v e heq st' h
    simp only [visitStmt, heq] at h
    exact absurd h (by simp)
  case case29 =>
    intro st v st2 heq st' h
    simp only [visitStmt, heq] at h
    cases h
    exact (visit_mono_expr.1 st v st2 heq).trans (bmono_add ..)
  case case30 =>
    intro st target op value hctx st' h
    simp only [visitStmt, hctx] at h
    exact absurd h (by simp)
  case case31 =>
    intro st target op value ctx hctx e heq st' h
    simp only [visitStmt, hctx, heq] at h
    exact absurd h (by simp)
  case case32 =>
    intro st target op value ctx hctx st2 heq e heqV st' h
    simp only [visitStmt, hctx, heq, heqV] at h
    exact absurd h (by simp)
  case case33 =>
    intro st target op value ctx hctx st2 heq st3 heqV st' h
    simp only [visitStmt, hctx, heq, heqV] at h
    have e1 : BMono st.bc st2.bc := visit_mono_expr.1 st _ st2 heq
    have e2 : BMono st2.bc st3.bc := visit_mono_expr.1 st2 value st3 heqV
    have e3 : BMono st3.bc (st3.bc.add (inplaceop_map op)) := bmono_add ..
    exact ((e1.trans e2).trans e3).trans (visit_mono_expr.1 _ _ st' h)
  case case34 =>
    intro st targets value e heq st' h
    simp only [visitStmt, heq] at h
    exact absurd h (by simp)
  case case35 =>
    intro st targets value st2 heq st' h
    simp only [visitStmt, heq] at h
    exact (visit_mono_expr.1 st value st2 heq).trans (visitAssignTargets_mono st2 targets st' h)
  case case36 =>
    intro st value e heq st' h
    simp only [visitStmt, heq] at h
    exact absurd h (by simp)
  case case37 =>
    intro st value st2 heq st' h
    simp only [visitStmt, heq] at h
    cases h
    exact (visit_mono_expr.1 st value st2 heq).trans (bmono_add ..)
  case case38 =>
    intro st names st' h
    simp only [visitStmt] at h
    exact importNames_mono names st st' h
  case case39 =>
    intro st module names level hstar st' h
    simp only [visitStmt, if_pos hstar] at h
    cases h
    have e1 : BMono st.bc (List.foldl (fun b n => b.addStr .LOAD_CONST_STRING n)
        (st.bc.load_int level) (names.map Prod.fst)) :=
      (bmono_load_int ..).trans
        (bmono_foldl _ (fun b a => bmono_addStr b .LOAD_CONST_STRING a) _ _)
    exact ((e1.trans (bmono_addN ..)).trans (bmono_addStr ..)).trans (bmono_add ..)
  case case40 =>
    intro st module names level bc1 bc2 hstar e heqI st' h
    simp only [visitStmt, if_neg hstar] at h
    unfold_let bc2 bc1 at heqI
    simp only [heqI] at h
    exact absurd h (by simp)
  case case41 =>
    intro st module names level bc1 bc2 hstar st2 heqI st' h
    simp only [visitStmt, if_neg hstar] at h
    unfold_let bc2 bc1 at heqI
    simp only [heqI] at h
    cases h
    have e1 : BMono st.bc (List.foldl (fun b n => b.addStr .LOAD_CONST_STRING n)
        (st.bc.load_int level) (names.map Prod.fst)) :=
      (bmono_load_int ..).trans
        (bmono_foldl _ (fun b a => bmono_addStr b .LOAD_CONST_STRING a) _ _)
    have e2 : Emits _ st2 := importFromNames_mono names _ st2 heqI
    exact (((e1.trans (bmono_addN ..)).trans (bmono_addStr ..)).trans e2).trans (bmono_add ..)
  case case42 =>
    intro st st' h
    simp only [visitSuite] at h
    cases h
    exact BMono.refl _
  case case43 =>
    intro st s rest e heq ih st' h
    simp only [visitSuite, heq] at h
    exact absurd h (by simp)
  case case44 =>
    intro st s rest org st2 heq hstk ih ihR st' h
    simp only [visitSuite, heq] at h
    unfold_let org at hstk
    rw [if_pos hstk] at h
    exact (ih st2 heq).trans (ihR st' h)
  case case45 =>
    intro st s rest org st2 heq hstk ih st' h
    simp only [visitSuite, heq] at h
    unfold_let org at hstk
    rw [if_neg hstk] at h
    exact absurd h (by simp)


/-! ## Helpers for concrete witnesses -/

/-- Extract the state of a successful compilation (defaulting to `demoSt`). -/
def okState (r : Except CErr CState) : CState :=
  match r with
  | .ok s => s
  | .error _ => demoSt

/-- `demoSt` inside one for-loop context. -/
def demoForSt : CState := { demoSt with loop_stack := [(0, 1, LoopKind.forK)] }

/-- `demoSt` inside one while-loop context. -/
def demoWhileSt : CState := { demoSt with loop_stack := [(0, 1, LoopKind.whileK)] }

/-! ## The claims -/

/-- Claim C1: in `_visit_suite`, every successfully compiled statement of a
suite leaves the simulated stack depth `stk_ptr` exactly where it was before
that statement, and this is checked at every statement boundary: a statement
that compiles with a non-zero net stack effect makes the whole suite abort
with an assertion failure. -/
theorem c1_statement_stack_balance :
    (∀ (s : Stmt) (rest : List Stmt) (st st' : CState),
        visitSuite st (s :: rest) = .ok st' →
        ∃ st1, visitStmt st s = .ok st1 ∧ st1.bc.stk_ptr = st.bc.stk_ptr ∧
          visitSuite st1 rest = .ok st') ∧
    (∀ (s : Stmt) (rest : List Stmt) (st st1 : CState),
        visitStmt st s = .ok st1 → st1.bc.stk_ptr ≠ st.bc.stk_ptr →
        visitSuite st (s :: rest) =
          .error (.fail "assert self.bc.stk_ptr == org_stk_ptr")) := by
  constructor
  · intro s rest st st' h
    simp only [visitSuite] at h
    cases hs : visitStmt st s with
    | error e => rw [hs] at h; exact absurd h (by simp)
    | ok st1 =>
      rw [hs] at h
      simp only [] at h
      split at h
      · rename_i heq
        exact ⟨st1, rfl, heq, h⟩
      · exact absurd h (by simp)
  · intro s rest st st1 hs hne
    simp only [visitSuite, hs]
    rw [if_neg hne]

unseal visitStmt visitSuite visitExpr visitExprList visitAssignTargets visitCompareOne visitBoolVals visitDictPairs in
/-- Witness for C1 at a concrete suite: `pass` (balanced) and a malformed
assignment whose target is a literal (net stack effect +2, aborts). -/
theorem c1_statement_stack_balance_witness :
    (∃ st1, visitStmt demoSt Stmt.passS = .ok st1 ∧
        st1.bc.stk_ptr = demoSt.bc.stk_ptr ∧ visitSuite st1 [] = .ok demoSt) ∧
    visitSuite demoSt [Stmt.assign [Expr.num (PyNum.int 1)] (Expr.num (PyNum.int 2))] =
      .error (.fail "assert self.bc.stk_ptr == org_stk_ptr") := by
  constructor
  · exact c1_statement_stack_balance.1 Stmt.passS [] demoSt demoSt rfl
  · exact c1_statement_stack_balance.2
      (Stmt.assign [Expr.num (PyNum.int 1)] (Expr.num (PyNum.int 2))) [] demoSt
      (okState (visitStmt demoSt
        (Stmt.assign [Expr.num (PyNum.int 1)] (Expr.num (PyNum.int 2)))))
      rfl (by decide)

unseal visitExpr in
/-- Claim C2 counterexample: the integer literal `2^30 - 1` has magnitude
below `2^30`, yet `visit_Num` does not emit it via the inline-immediate
`load_int`: its range assert `-2**30 < n < 2**30 - 1` is strict below
`2^30 - 1`, so compilation aborts and nothing is emitted. -/
theorem c2_smallint_window_cx :
    ((2 : Int) ^ 30 - 1).natAbs < 2 ^ 30 ∧
    visitExpr demoSt (Expr.num (PyNum.int (2 ^ 30 - 1))) =
      .error (CErr.fail "assert -2**30 < node.n < 2**30 - 1") :=
  ⟨by norm_num, rfl⟩

/-- Claim C2, amended: an integer literal `n` is emitted via the compact
inline-immediate `load_int` exactly when `-2^30 < n < 2^30 - 1` (the
asserted window); every other integer literal, in particular any literal
outside the small-int window, aborts compilation with an assertion failure
instead of going through the constant pool. -/
theorem c2_num_literal_amended (st : CState) (n : Int) :
    (-(2 ^ 30 : Int) < n ∧ n < 2 ^ 30 - 1 →
      visitExpr st (Expr.num (PyNum.int n)) =
        .ok { st with bc := st.bc.emit (.ins .LOAD_CONST_SMALL_INT (.intArg n)) 1 }) ∧
    (¬(-(2 ^ 30 : Int) < n ∧ n < 2 ^ 30 - 1) →
      visitExpr st (Expr.num (PyNum.int n)) =
        .error (CErr.fail "assert -2**30 < node.n < 2**30 - 1")) := by
  constructor
  · intro hr
    simp only [visitExpr, if_pos hr]
    unfold Bytecode.load_int
    rw [if_pos ⟨hr.1, by omega⟩]
  · intro hr
    simp only [visitExpr, if_neg hr]

/-- Witness for the amended C2 at `n = 5` (inline) and `n = 2^30` (abort). -/
theorem c2_num_literal_amended_witness :
    visitExpr demoSt (Expr.num (PyNum.int 5)) =
      .ok { demoSt with bc := demoSt.bc.emit (.ins .LOAD_CONST_SMALL_INT (.intArg 5)) 1 } ∧
    visitExpr demoSt (Expr.num (PyNum.int (2 ^ 30))) =
      .error (CErr.fail "assert -2**30 < node.n < 2**30 - 1") :=
  ⟨(c2_num_literal_amended demoSt 5).1 (by norm_num),
   (c2_num_literal_amended demoSt (2 ^ 30)).2 (by norm_num)⟩

/-- Claim C3: `visit_Break` with a `for` frame innermost emits exactly four
POP_TOP instructions immediately before the unconditional JUMP to the break
target, and the shadow `stk_ptr` ends where it started; with a `while`
frame innermost it emits the JUMP alone, with no POP_TOP. -/
theorem c3_break_pops (st : CState) (c b : Nat)
    (rest : List (Nat × Nat × LoopKind)) (st' : CState) :
    (st.loop_stack = (c, b, LoopKind.forK) :: rest →
      visitStmt st Stmt.breakS = .ok st' →
      st'.bc.code = st.bc.code ++
        [Instr.ins .POP_TOP .noArg, Instr.ins .POP_TOP .noArg,
         Instr.ins .POP_TOP .noArg, Instr.ins .POP_TOP .noArg, Instr.jmp .JUMP b] ∧
      st'.bc.stk_ptr = st.bc.stk_ptr) ∧
    (st.loop_stack = (c, b, LoopKind.whileK) :: rest →
      visitStmt st Stmt.breakS = .ok st' →
      st'.bc.code = st.bc.code ++ [Instr.jmp .JUMP b] ∧
      st'.bc.stk_ptr = st.bc.stk_ptr) := by
  constructor
  · intro hls h
    simp only [visitStmt, hls] at h
    rw [if_pos trivial] at h
    cases h
    refine ⟨?_, ?_⟩
    · simp [Bytecode.jump, Bytecode.emit, Bytecode.add]
    · simp [Bytecode.jump, Bytecode.emit, Bytecode.add, stackEffect]
  · intro hls h
    simp only [visitStmt, hls] at h
    rw [if_neg (by simp)] at h
    cases h
    refine ⟨?_, ?_⟩
    · simp [Bytecode.jump, Bytecode.emit]
    · simp [Bytecode.jump, Bytecode.emit, stackEffect]

unseal visitStmt in
/-- Witness for C3: a break inside a concrete for frame and inside a
concrete while frame. -/
theorem c3_break_pops_witness :
    ((okState (visitStmt demoForSt Stmt.breakS)).bc.code = demoForSt.bc.code ++
        [Instr.ins .POP_TOP .noArg, Instr.ins .POP_TOP .noArg,
         Instr.ins .POP_TOP .noArg, Instr.ins .POP_TOP .noArg, Instr.jmp .JUMP 1] ∧
      (okState (visitStmt demoForSt Stmt.breakS)).bc.stk_ptr = demoForSt.bc.stk_ptr) ∧
    ((okState (visitStmt demoWhileSt Stmt.breakS)).bc.code = demoWhileSt.bc.code ++
        [Instr.jmp .JUMP 1] ∧
      (okState (visitStmt demoWhileSt Stmt.breakS)).bc.stk_ptr = demoWhileSt.bc.stk_ptr) :=
  ⟨(c3_break_pops demoForSt 0 1 [] _).1 rfl rfl,
   (c3_break_pops demoWhileSt 0 1 [] _).2 rfl rfl⟩

/-- Claim C7: the documented unsupported constructs are rejected before any
code is emitted for them: a function definition with a variadic,
keyword-only, keyword-default, double-star or positional-default parameter;
a call with keyword arguments; and a comparison with more than one
operator.  In each case compilation fails with an error and produces no
output. -/
theorem c7_unsupported_rejected (st : CState) :
    (∀ fname params va ko kd kw df body ftab,
      (va = true ∨ ko = true ∨ kd = true ∨ kw = true ∨ df = true) →
      ∃ e, visitStmt st (.functionDef fname params va ko kd kw df body ftab) = .error e) ∧
    (∀ func args, ∃ e, visitExpr st (.call func args true) = .error e) ∧
    (∀ left ops comps, 1 < ops.length →
      ∃ e, visitExpr st (.compare left ops comps) = .error e) := by
  refine ⟨?_, ?_, ?_⟩
  · intro fname params va ko kd kw df body ftab hflag
    by_cases hva : va = true
    · exact ⟨CErr.fail "assert args.vararg is None",
        by simp only [visitStmt, if_pos hva]⟩
    · by_cases hko : ko = true
      · exact ⟨CErr.fail "assert not args.kwonlyargs",
          by simp only [visitStmt, if_neg hva, if_pos hko]⟩
      · by_cases hkd : kd = true
        · exact ⟨CErr.fail "assert not args.kw_defaults",
            by simp only [visitStmt, if_neg hva, if_neg hko, if_pos hkd]⟩
        · by_cases hkw : kw = true
          · exact ⟨CErr.fail "assert args.kwarg is None", by
              simp only [visitStmt, if_neg hva, if_neg hko, if_neg hkd, if_pos hkw]⟩
          · have hdf : df = true := by
              rcases hflag with h | h | h | h | h <;> simp_all
            exact ⟨CErr.fail "assert not args.defaults", by
              simp only [visitStmt, if_neg hva, if_neg hko, if_neg hkd, if_neg hkw,
                if_pos hdf]⟩
  · intro func args
    exact ⟨CErr.fail "assert not node.keywords", by simp [visitExpr]⟩
  · intro left ops comps hlen
    match ops with
    | [] => simp at hlen
    | [op] => simp at hlen
    | o1 :: o2 :: tl =>
      exact ⟨CErr.fail "assert len(node.ops) == 1", by simp only [visitExpr]⟩

/-- Witness for C7 at concrete unsupported constructs. -/
theorem c7_unsupported_rejected_witness :
    (∃ e, visitStmt demoSt
        (.functionDef "f" [] true false false false false [] demoTab) = .error e) ∧
    (∃ e, visitExpr demoSt (.call (.name "f" .load) [] true) = .error e) ∧
    (∃ e, visitExpr demoSt
        (.compare (.name "a" .load) [.eq, .eq] []) = .error e) :=
  ⟨(c7_unsupported_rejected demoSt).1 "f" [] true false false false false [] demoTab
      (Or.inl rfl),
   (c7_unsupported_rejected demoSt).2.1 (.name "f" .load) [],
   (c7_unsupported_rejected demoSt).2.2 (.name "a" .load) [.eq, .eq] [] (by norm_num)⟩

/-- Claim C8: `break` and `continue` compile only with a non-empty
loop-context stack (`assert self.loop_stack`), and always target the
innermost frame: `continue` jumps to its continue-target, `break` to its
break-target. -/
theorem c8_break_continue_loop_ctx (st : CState) :
    (st.loop_stack = [] →
      visitStmt st Stmt.breakS = .error (CErr.fail "assert self.loop_stack") ∧
      visitStmt st Stmt.continueS = .error (CErr.fail "assert self.loop_stack")) ∧
    (∀ c b k rest, st.loop_stack = (c, b, k) :: rest →
      (∃ st', visitStmt st Stmt.continueS = .ok st' ∧
        st'.bc.code = st.bc.code ++ [Instr.jmp .JUMP c]) ∧
      (∃ st' pre, visitStmt st Stmt.breakS = .ok st' ∧
        st'.bc.code = st.bc.code ++ pre ++ [Instr.jmp .JUMP b])) := by
  constructor
  · intro hls
    constructor <;> simp only [visitStmt, hls]
  · intro c b k rest hls
    constructor
    · have hh : visitStmt st Stmt.continueS = .ok { st with bc := st.bc.jump .JUMP c } := by
        simp only [visitStmt, hls]
      exact ⟨_, hh, by simp [Bytecode.jump, Bytecode.emit]⟩
    · have hh : visitStmt st Stmt.breakS = .ok { st with
          bc := (if k = LoopKind.forK then
              { (((st.bc.add .POP_TOP).add .POP_TOP).add .POP_TOP).add .POP_TOP with
                stk_ptr := st.bc.stk_ptr }
            else st.bc).jump .JUMP b } := by
        simp only [visitStmt, hls]
      by_cases hk : k = LoopKind.forK
      · refine ⟨_, [Instr.ins .POP_TOP .noArg, Instr.ins .POP_TOP .noArg,
          Instr.ins .POP_TOP .noArg, Instr.ins .POP_TOP .noArg], hh, ?_⟩
        rw [if_pos hk]
        simp [Bytecode.jump, Bytecode.emit, Bytecode.add]
      · refine ⟨_, [], hh, ?_⟩
        rw [if_neg hk]
        simp [Bytecode.jump, Bytecode.emit]

/-- Witness for C8 at the empty loop stack and at concrete for/while frames. -/
theorem c8_break_continue_loop_ctx_witness :
    (visitStmt demoSt Stmt.breakS = .error (CErr.fail "assert self.loop_stack") ∧
     visitStmt demoSt Stmt.continueS = .error (CErr.fail "assert self.loop_stack")) ∧
    ((∃ st', visitStmt demoForSt Stmt.continueS = .ok st' ∧
        st'.bc.code = demoForSt.bc.code ++ [Instr.jmp .JUMP 0]) ∧
     (∃ st' pre, visitStmt demoForSt Stmt.breakS = .ok st' ∧
        st'.bc.code = demoForSt.bc.code ++ pre ++ [Instr.jmp .JUMP 1])) :=
  ⟨(c8_break_continue_loop_ctx demoSt).1 rfl,
   (c8_break_continue_loop_ctx demoForSt).2 0 1 LoopKind.forK [] rfl⟩

/-- Claim C10: a numeric literal whose payload is not an integer (such as a
float) makes `visit_Num` abort compilation at its first assertion, before
any opcode is emitted for the literal. -/
theorem c10_nonint_literal_fatal (st : CState) :
    visitExpr st (Expr.num PyNum.float) =
      .error (CErr.fail "assert isinstance(node.n, int)") := by
  simp only [visitExpr]


/-- Restoring the saved context after the transient Load rewrite of
`_visit_with_load_ctx` returns the original node. -/
theorem setCtx_restore (e : Expr) (c : Ctx) (h : getCtx e = some c) :
    setCtx (setCtx e Ctx.load) c = e := by
  cases e <;> simp_all [getCtx, setCtx]

/-- Claim C9: `visit_AugAssign` emits, in order, the target in load context
(the node's context attribute transiently rewritten to Load), the value,
the mapped in-place opcode, and finally the target in its original store
context; the transient rewrite is undone, so the node compiled at the end
is the original node, context attribute included. -/
theorem c9_augassign_sequence (st : CState) (target : Expr) (op : PyBinOp)
    (value : Expr) (st' : CState)
    (h : visitStmt st (.augAssign target op value) = .ok st') :
    ∃ ctx st1 st2,
      getCtx target = some ctx ∧
      visitExpr st (setCtx target Ctx.load) = .ok st1 ∧
      setCtx (setCtx target Ctx.load) ctx = target ∧
      visitExpr st1 value = .ok st2 ∧
      visitExpr { st2 with bc := st2.bc.add (inplaceop_map op) } target = .ok st' := by
  simp only [visitStmt] at h
  cases hctx : getCtx target with
  | none => rw [hctx] at h; exact absurd h (by simp)
  | some ctx =>
    rw [hctx] at h
    simp only [] at h
    cases h1 : visitExpr st (setCtx target Ctx.load) with
    | error e => rw [h1] at h; exact absurd h (by simp)
    | ok st1 =>
      rw [h1] at h
      simp only [] at h
      cases h2 : visitExpr st1 value with
      | error e => rw [h2] at h; exact absurd h (by simp)
      | ok st2 =>
        rw [h2] at h
        simp only [] at h
        rw [setCtx_restore target ctx hctx] at h
        exact ⟨ctx, st1, st2, rfl, rfl, setCtx_restore target ctx hctx, h2, h⟩

unseal visitStmt visitSuite visitExpr visitExprList visitAssignTargets visitCompareOne visitBoolVals visitDictPairs in
/-- Witness for C9 at the concrete statement `x += 1`. -/
theorem c9_augassign_sequence_witness :
    ∃ ctx st1 st2,
      getCtx (Expr.name "x" Ctx.store) = some ctx ∧
      visitExpr demoSt (setCtx (Expr.name "x" Ctx.store) Ctx.load) = .ok st1 ∧
      setCtx (setCtx (Expr.name "x" Ctx.store) Ctx.load) ctx = Expr.name "x" Ctx.store ∧
      visitExpr st1 (Expr.num (PyNum.int 1)) = .ok st2 ∧
      visitExpr { st2 with bc := st2.bc.add (inplaceop_map PyBinOp.add) }
        (Expr.name "x" Ctx.store) =
        .ok (okState (visitStmt demoSt
          (Stmt.augAssign (Expr.name "x" Ctx.store) PyBinOp.add (Expr.num (PyNum.int 1))))) :=
  c9_augassign_sequence demoSt (Expr.name "x" Ctx.store) PyBinOp.add
    (Expr.num (PyNum.int 1)) _ rfl

/-- The emission pattern `visit_Assign` produces for its target list: every
target except the last is immediately preceded by exactly one DUP_TOP and
compiled as-is (in its parser-assigned store context); the final target is
compiled with no preceding DUP_TOP. -/
inductive ChainStores : CState → List Expr → CState → Prop where
  | last (st : CState) (t : Expr) (st' : CState)
      (h : visitExpr st t = .ok st') : ChainStores st [t] st'
  | dup (st : CState) (t : Expr) (rest : List Expr) (st1 st' : CState)
      (hne : rest ≠ [])
      (h : visitExpr { st with bc := st.bc.add .DUP_TOP } t = .ok st1)
      (hrest : ChainStores st1 rest st') : ChainStores st (t :: rest) st'

theorem visitAssignTargets_chain :
    ∀ (st : CState) (ts : List Expr), ∀ st',
      visitAssignTargets st ts = .ok st' → ChainStores st ts st' := by
  apply visitAssignTargets.induct
    (fun st ts => ∀ st', visitAssignTargets st ts = .ok st' → ChainStores st ts st')
  case case1 =>
    intro st st' h
    simp [visitAssignTargets] at h
  case case2 =>
    intro st t st' h
    simp only [visitAssignTargets] at h
    exact ChainStores.last st t st' h
  case case3 =>
    intro st t u rest e heq st' h
    simp only [visitAssignTargets, heq] at h
    exact absurd h (by simp)
  case case4 =>
    intro st t u rest st1 heq ihR st' h
    simp only [visitAssignTargets, heq] at h
    exact ChainStores.dup st t (u :: rest) st1 st' (by simp) heq (ihR st' h)

/-- Claim C6: for a chained assignment `a = b = ... = expr`, `visit_Assign`
emits the value expression exactly once (appending its code to the buffer),
then the DUP_TOP chain: one DUP_TOP immediately before every target except
the last, each target in store context, and the final target with no
preceding DUP_TOP. -/
theorem c6_chained_assign (st : CState) (ts : List Expr) (v : Expr) (st' : CState)
    (h : visitStmt st (.assign ts v) = .ok st') :
    ∃ stv, visitExpr st v = .ok stv ∧ (∃ c, stv.bc.code = st.bc.code ++ c) ∧
      ChainStores stv ts st' := by
  simp only [visitStmt] at h
  cases hv : visitExpr st v with
  | error e => rw [hv] at h; exact absurd h (by simp)
  | ok stv =>
    rw [hv] at h
    simp only [] at h
    exact ⟨stv, rfl, (visit_mono_expr.1 st v stv hv).1, visitAssignTargets_chain stv ts st' h⟩

unseal visitStmt visitSuite visitExpr visitExprList visitAssignTargets visitCompareOne visitBoolVals visitDictPairs in
/-- Witness for C6 at the concrete statement `a = b = 2`. -/
theorem c6_chained_assign_witness :
    ∃ stv, visitExpr demoSt (Expr.num (PyNum.int 2)) = .ok stv ∧
      (∃ c, stv.bc.code = demoSt.bc.code ++ c) ∧
      ChainStores stv [Expr.name "a" Ctx.store, Expr.name "b" Ctx.store]
        (okState (visitStmt demoSt (Stmt.assign
          [Expr.name "a" Ctx.store, Expr.name "b" Ctx.store] (Expr.num (PyNum.int 2))))) :=
  c6_chained_assign demoSt [Expr.name "a" Ctx.store, Expr.name "b" Ctx.store]
    (Expr.num (PyNum.int 2)) _ rfl


/-- Claim C4: `visit_For` allocates the test and end labels, then emits, in
order: the iterable; GET_ITER_STACK; the bound test label; FOR_ITER jumping
to the end label; the target (in its store context); the body compiled with
the for loop context pushed and popped afterwards; an unconditional JUMP
back to the test label; the bound end label; then it decrements the shadow
`stk_ptr` by exactly 4 before emitting the else branch.  The final buffer
is the concatenation of these emissions in that order. -/
theorem c4_for_emission (st : CState) (target iter : Expr)
    (body orelse : List Stmt) (st' : CState)
    (h : visitStmt st (.forS target iter body orelse) = .ok st') :
    ∃ test_l end_l st1 st2 st3 st4,
      test_l = st.bc.next_label ∧ end_l = st.bc.next_label + 1 ∧
      visitExpr { st with bc := { st.bc with next_label := st.bc.next_label + 2 } }
        iter = .ok st1 ∧
      visitExpr { st1 with
        bc := ((st1.bc.add .GET_ITER_STACK).put_label test_l).jump .FOR_ITER end_l }
        target = .ok st2 ∧
      visitSuite { st2 with
        loop_stack := (test_l, end_l, LoopKind.forK) :: st2.loop_stack } body = .ok st3 ∧
      st4 = { st3 with
        loop_stack := st3.loop_stack.tail,
        bc := { ((st3.bc.jump .JUMP test_l).put_label end_l) with
                stk_ptr := ((st3.bc.jump .JUMP test_l).put_label end_l).stk_ptr - 4 } } ∧
      st4.bc.stk_ptr = ((st3.bc.jump .JUMP test_l).put_label end_l).stk_ptr - 4 ∧
      visitSuite st4 orelse = .ok st' ∧
      ∃ iterC targetC bodyC elseC,
        st'.bc.code = st.bc.code ++ iterC ++ [Instr.ins .GET_ITER_STACK .noArg] ++
          [Instr.lbl test_l] ++ [Instr.jmp .FOR_ITER end_l] ++ targetC ++ bodyC ++
          [Instr.jmp .JUMP test_l] ++ [Instr.lbl end_l] ++ elseC := by
  simp only [visitStmt, Bytecode.get_label] at h
  split at h
  · exact absurd h (by simp)
  · rename_i st1 h1
    split at h
    · exact absurd h (by simp)
    · rename_i st2 h2
      split at h
      · exact absurd h (by simp)
      · rename_i st3 h3
        refine ⟨st.bc.next_label, st.bc.next_label + 1, st1, st2, st3, _,
          rfl, rfl, h1, h2, h3, rfl, rfl, h, ?_⟩
        obtain ⟨⟨iterC, hic⟩, -⟩ := visit_mono_expr.1 _ iter st1 h1
        obtain ⟨⟨targetC, htc⟩, -⟩ := visit_mono_expr.1 _ target st2 h2
        obtain ⟨⟨bodyC, hbc⟩, -⟩ := visit_mono_stmt.2 _ body st3 h3
        obtain ⟨⟨elseC, hec⟩, -⟩ := visit_mono_stmt.2 _ orelse st' h
        refine ⟨iterC, targetC, bodyC, elseC, ?_⟩
        simp only [Bytecode.add, Bytecode.put_label, Bytecode.jump,
          Bytecode.emit] at hic htc hbc hec
        rw [hec, hbc, htc, hic]


unseal visitStmt visitSuite visitExpr visitExprList visitAssignTargets visitCompareOne visitBoolVals visitDictPairs in
/-- Witness for C4 at the concrete statement `for i in r: pass`. -/
theorem c4_for_emission_witness :
    ∃ test_l end_l st1 st2 st3 st4,
      test_l = demoSt.bc.next_label ∧ end_l = demoSt.bc.next_label + 1 ∧
      visitExpr { demoSt with
        bc := { demoSt.bc with next_label := demoSt.bc.next_label + 2 } }
        (Expr.name "r" Ctx.load) = .ok st1 ∧
      visitExpr { st1 with
        bc := ((st1.bc.add .GET_ITER_STACK).put_label test_l).jump .FOR_ITER end_l }
        (Expr.name "i" Ctx.store) = .ok st2 ∧
      visitSuite { st2 with
        loop_stack := (test_l, end_l, LoopKind.forK) :: st2.loop_stack }
        [Stmt.passS] = .ok st3 ∧
      st4 = { st3 with
        loop_stack := st3.loop_stack.tail,
        bc := { ((st3.bc.jump .JUMP test_l).put_label end_l) with
                stk_ptr := ((st3.bc.jump .JUMP test_l).put_label end_l).stk_ptr - 4 } } ∧
      st4.bc.stk_ptr = ((st3.bc.jump .JUMP test_l).put_label end_l).stk_ptr - 4 ∧
      visitSuite st4 [] = .ok (okState (visitStmt demoSt
        (Stmt.forS (Expr.name "i" Ctx.store) (Expr.name "r" Ctx.load) [Stmt.passS] []))) ∧
      ∃ iterC targetC bodyC elseC,
        (okState (visitStmt demoSt (Stmt.forS (Expr.name "i" Ctx.store)
            (Expr.name "r" Ctx.load) [Stmt.passS] []))).bc.code =
          demoSt.bc.code ++ iterC ++ [Instr.ins .GET_ITER_STACK .noArg] ++
          [Instr.lbl test_l] ++ [Instr.jmp .FOR_ITER end_l] ++ targetC ++ bodyC ++
          [Instr.jmp .JUMP test_l] ++ [Instr.lbl end_l] ++ elseC :=
  c4_for_emission demoSt (Expr.name "i" Ctx.store) (Expr.name "r" Ctx.load)
    [Stmt.passS] [] _ rfl

/-- Folding `add_const` over pairwise-distinct atoms absent from the pool
appends them in order. -/
theorem foldl_add_const_strC :
    ∀ (params : List String) (bc : Bytecode), params.Nodup →
      (∀ p ∈ params, ∀ x ∈ bc.consts, Const.eqb x (Const.strC p) = false) →
      (params.foldl (fun b p => (b.add_const (Const.strC p)).1) bc).consts =
        bc.consts ++ params.map Const.strC := by
  intro params
  induction params with
  | nil => intro bc _ _; simp
  | cons p rest ih =>
    intro bc hnd habs
    simp only [List.foldl_cons]
    have hnone : bc.consts.findIdx? (fun x => Const.eqb x (Const.strC p)) = none :=
      List.findIdx?_eq_none_iff.mpr (fun x hx => habs p (by simp) x hx)
    have hstep : ((bc.add_const (Const.strC p)).1).consts = bc.consts ++ [Const.strC p] := by
      unfold Bytecode.add_const
      rw [hnone]
    have hstep2 : (bc.add_const (Const.strC p)).1 =
        { bc with consts := bc.consts ++ [Const.strC p] } := by
      unfold Bytecode.add_const
      rw [hnone]
    rw [hstep2]
    rw [ih _ (List.nodup_cons.mp hnd).2 ?_]
    · simp
    · intro q hq x hx
      simp only [List.mem_append, List.mem_singleton] at hx
      rcases hx with hx | hx
      · exact habs q (by simp [hq]) x hx
      · subst hx
        have hne : p ≠ q := fun hpq => (List.nodup_cons.mp hnd).1 (hpq ▸ hq)
        simp [Const.eqb, hne]

/-- Claim C5: `_visit_function` compiles the body in a fresh assembler whose
constant pool is pre-seeded with the interned parameter-name atoms; the
resulting code object has `argcount` equal to the number of positional
parameters, a constant pool beginning with the parameter-name atoms in
parameter order (the k names are pairwise distinct in any legal def), a
`stacksize` equal to the inner high-water mark increased by the number of
fast local slots, and the trailing `LOAD_CONST_NONE; RETURN_VALUE` epilogue
appended exactly when the last statement of the body is not a `return`. -/
theorem c5_function_codeobj (st : CState) (fname : String) (params : List String)
    (body : List Stmt) (ftab : SymTable) (st' : CState)
    (h : visitStmt st
      (.functionDef fname params false false false false false body ftab) = .ok st') :
    ∃ (stB : CState) (co : CodeObj),
      visitSuite { st with
        bc := params.foldl (fun b p => (b.add_const (Const.strC p)).1) {},
        symtab := ftab } body = .ok stB ∧
      visitVar { stB with
        bc := st.bc.addObj .MAKE_FUNCTION co.toConst,
        symtab := st.symtab } fname .storeConst = .ok st' ∧
      co.argcount = params.length ∧
      co.name = fname ∧ co.filename = st.filename ∧
      co.instrs = stB.bc.code ++
        (if endsWithReturn body then []
         else [Instr.ins .LOAD_CONST_NONE .noArg, Instr.ins .RETURN_VALUE .noArg]) ∧
      co.stacksize =
        (if endsWithReturn body then stB.bc
         else (stB.bc.add .LOAD_CONST_NONE).add .RETURN_VALUE).stk_max +
          ftab.all_locals ∧
      (params.Nodup → co.consts.take params.length = params.map Const.strC) := by
  simp only [visitStmt] at h
  rw [if_neg (by simp), if_neg (by simp), if_neg (by simp), if_neg (by simp),
    if_neg (by simp)] at h
  split at h
  · exact absurd h (by simp)
  · rename_i stB hB
    refine ⟨stB,
      { instrs := (if endsWithReturn body then stB.bc
            else (stB.bc.add .LOAD_CONST_NONE).add .RETURN_VALUE).code,
        consts := (if endsWithReturn body then stB.bc
            else (stB.bc.add .LOAD_CONST_NONE).add .RETURN_VALUE).consts,
        stacksize := (if endsWithReturn body then stB.bc
            else (stB.bc.add .LOAD_CONST_NONE).add .RETURN_VALUE).stk_max +
          ftab.all_locals,
        name := fname, filename := st.filename, argcount := params.length },
      hB, h, rfl, rfl, rfl, ?_, rfl, ?_⟩
    · by_cases he : endsWithReturn body
      · simp [he]
      · simp [he, Bytecode.add, Bytecode.emit]
    · intro hnd
      have hconsts : (if endsWithReturn body then stB.bc
          else (stB.bc.add .LOAD_CONST_NONE).add .RETURN_VALUE).consts = stB.bc.consts := by
        by_cases he : endsWithReturn body
        · simp [he]
        · simp [he, Bytecode.add, Bytecode.emit]
      obtain ⟨-, ⟨d, hd⟩⟩ := visit_mono_stmt.2 _ body stB hB
      have hinner : (params.foldl (fun b p => (b.add_const (Const.strC p)).1)
          ({} : Bytecode)).consts = params.map Const.strC := by
        have := foldl_add_const_strC params {} hnd (by intro p _ x hx; simp at hx)
        simpa using this
      simp only [] at hd
      rw [hinner] at hd
      simp only [hconsts, hd]
      rw [List.take_left' (by simp)]

/-- The symbol table of the one-parameter function `f` in the C5 witness:
`x` is a fast local in slot 0 and the only local. -/
def fDemoTab : SymTable :=
  { get_scope := fun _ => Scope.FAST, get_fast_local := fun _ => 0, all_locals := 1 }

set_option maxRecDepth 10000 in
unseal visitStmt visitSuite visitExpr visitExprList visitAssignTargets visitCompareOne visitBoolVals visitDictPairs in
/-- Witness for C5 at the concrete definition `def f(x): return x`. -/
theorem c5_function_codeobj_witness :
    ∃ (stB : CState) (co : CodeObj),
      visitSuite { demoSt with
        bc := ["x"].foldl (fun b p => (b.add_const (Const.strC p)).1) {},
        symtab := fDemoTab } [Stmt.ret (some (Expr.name "x" Ctx.load))] = .ok stB ∧
      visitVar { stB with
        bc := demoSt.bc.addObj .MAKE_FUNCTION co.toConst,
        symtab := demoSt.symtab } "f" .storeConst =
        .ok (okState (visitStmt demoSt (Stmt.functionDef "f" ["x"]
          false false false false false [Stmt.ret (some (Expr.name "x" Ctx.load))]
          fDemoTab))) ∧
      co.argcount = ["x"].length ∧
      co.name = "f" ∧ co.filename = demoSt.filename ∧
      co.instrs = stB.bc.code ++
        (if endsWithReturn [Stmt.ret (some (Expr.name "x" Ctx.load))] then []
         else [Instr.ins .LOAD_CONST_NONE .noArg, Instr.ins .RETURN_VALUE .noArg]) ∧
      co.stacksize =
        (if endsWithReturn [Stmt.ret (some (Expr.name "x" Ctx.load))] then stB.bc
         else (stB.bc.add .LOAD_CONST_NONE).add .RETURN_VALUE).stk_max +
          fDemoTab.all_locals ∧
      (["x"].Nodup → co.consts.take ["x"].length = ["x"].map Const.strC) :=
  c5_function_codeobj demoSt "f" ["x"] [Stmt.ret (some (Expr.name "x" Ctx.load))]
    fDemoTab _ rfl

end UComp
